import Mathlib

/-!
Verification of the Library API (TypeScript + Express, in-memory storage).

The development shallowly embeds the data model and the operational core of
the service:

* `src/models/author.ts`, `src/models/book.ts` — the two in-memory tables and
  the ID generators (`getNextAuthorId`, `getNextBookId`);
* `src/middleware/validation.ts` — `validateAuthorPayload`,
  `validateBookPayload`;
* `src/routes/authors.ts` — POST/PUT/DELETE `/authors`, GET `/authors/:id/books`;
* `src/routes/books.ts` — POST/PUT/DELETE `/books` and the GET `/books`
  query pipeline (filter → sort → paginate).

JavaScript strings are embedded as Lean `String`; the JS primitives used by
the code (`trim`, `toLowerCase`, `includes`, `split`) are given structural
definitions over the underlying character list so that every definition is
executable and kernel-reducible.  JS numbers appearing in the code are
integers throughout (ids, years, limits, pages), embedded as `Int`.
`Array.prototype.sort` (stable since ES2019) is embedded as the stable
insertion sort from Mathlib, applied to the exact comparator of the source.

Request payload fields can be absent or carry a value of the wrong runtime
type, which the validation middleware checks with `typeof`; payloads are
therefore embedded with a small JS-value type `JsVal`.
-/

namespace LibraryAPI

/-- JS runtime value for a payload field: `undefined`, a string, a number, or
any other value (object, boolean, ...).  Used to embed the `typeof` and
truthiness checks of `src/middleware/validation.ts`. -/
inductive JsVal where
  | undefined : JsVal
  | str : String → JsVal
  | num : Int → JsVal
  | other : JsVal
deriving DecidableEq, Repr

/-- JS truthiness of a `JsVal` (`undefined`, `""` and `0` are falsy; a
catch-all `other` value models a non-primitive, which is truthy). -/
def JsVal.truthy : JsVal → Bool
  | .undefined => false
  | .str s => !(s == "")
  | .num n => !(n == 0)
  | .other => true

/-- The `typeof v === 'string'` test. -/
def JsVal.isString : JsVal → Bool
  | .str _ => true
  | _ => false

/-- The `typeof v === 'number'` test. -/
def JsVal.isNumber : JsVal → Bool
  | .num _ => true
  | _ => false

/-- Extract the string payload of a value known (after validation) to be a
string. -/
def JsVal.asString : JsVal → String
  | .str s => s
  | _ => ""

/-- Extract the number payload of a value known (after validation) to be a
number. -/
def JsVal.asNum : JsVal → Int
  | .num n => n
  | _ => 0

/-- Extract an optional number: after validation `year` is either `undefined`
or a number; `undefined` stays absent. -/
def JsVal.asOptNum : JsVal → Option Int
  | .num n => some n
  | _ => none

/-! ### JS string primitives

Lean `String` is a structure around `data : List Char`, so the JS string
operations used by the source are given directly as structural list
programs: this keeps them executable and provable.  (`toLowerCase` lowercases
character-wise; `trim` strips whitespace from both ends; `includes` is
substring containment; `split` separates on a character.) -/

/-- JS `String.prototype.toLowerCase` (character-wise lowercasing). -/
def jsToLower (s : String) : String := ⟨s.data.map Char.toLower⟩

/-- Strip leading and trailing whitespace from a character list. -/
def trimChars (l : List Char) : List Char :=
  ((l.dropWhile Char.isWhitespace).reverse.dropWhile Char.isWhitespace).reverse

/-- JS `String.prototype.trim`. -/
def jsTrim (s : String) : String := ⟨trimChars s.data⟩

/-- Containment of `pat` as a contiguous run inside `hay` (character lists). -/
def charsInclude (pat : List Char) : List Char → Bool
  | [] => pat.isEmpty
  | c :: cs => pat.isPrefixOf (c :: cs) || charsInclude pat cs

/-- JS `String.prototype.includes`. -/
def jsIncludes (hay pat : String) : Bool := charsInclude pat.data hay.data

/-- Split a character list on a separator character (JS
`String.prototype.split` with a single-character separator: `"".split` is
`[""]`, and separators at the ends produce empty fragments). -/
def splitChars (sep : Char) : List Char → List (List Char)
  | [] => [[]]
  | c :: cs =>
    let r := splitChars sep cs
    if c = sep then [] :: r
    else (c :: r.headD []) :: r.tail

/-- JS `String.prototype.split` with a one-character separator. -/
def jsSplit (sep : Char) (s : String) : List String :=
  (splitChars sep s.data).map String.mk

/-! ### Data model (`src/types/index.ts`, `src/models`) -/

/-- An Author record of the in-memory `authors` array. -/
structure Author where
  id : Int
  name : String
  bio : Option String
deriving DecidableEq, Repr

/-- A Book record of the in-memory `books` array; `authorId` is the foreign
key into the authors table. -/
structure Book where
  id : Int
  title : String
  year : Option Int
  authorId : Int
deriving DecidableEq, Repr

/-- The whole in-memory store: the module-scoped `authors` and `books`
arrays. -/
structure LibraryState where
  authors : List Author
  books : List Book
deriving DecidableEq, Repr

/-- Both tables start empty (`export const authors = []`, `books = []`). -/
def initialState : LibraryState := ⟨[], []⟩

/-- The value of `Math.max(...l)` for a nonempty list (the `[]` case is never
used by the source, which guards with a length check; we return `0` there). -/
def maxOfList : List Int → Int
  | [] => 0
  | x :: xs => xs.foldl max x

/-- The `getNextAuthorId` helper of `src/models/author.ts`:
`if (authors.length === 0) return 1; return Math.max(...authors.map(a => a.id)) + 1`. -/
def getNextAuthorId (authors : List Author) : Int :=
  if authors.length = 0 then 1
  else maxOfList (authors.map (·.id)) + 1

/-- The `getNextBookId` helper of `src/models/book.ts`:
`books.reduce((max, b) => Math.max(max, b.id), 0) + 1`. -/
def getNextBookId (books : List Book) : Int :=
  books.foldl (fun m b => max m b.id) 0 + 1

/-! ### Validation middleware (`src/middleware/validation.ts`) -/

/-- The request body for POST/PUT `/authors` (`CreateAuthorBody`); `bio` is
unconstrained and passed through, embedded as an optional string. -/
structure CreateAuthorBody where
  name : JsVal
  bio : Option String
deriving DecidableEq, Repr

/-- The request body for POST/PUT `/books` (`CreateBookBody`). -/
structure CreateBookBody where
  title : JsVal
  year : JsVal
  authorId : JsVal
deriving DecidableEq, Repr

/-- The single failure of `validateAuthorPayload`. -/
inductive AuthorValidationError where
  | nameRequired : AuthorValidationError
deriving DecidableEq, Repr

/-- The four failures of `validateBookPayload`, in source order. -/
inductive BookValidationError where
  | titleRequired : BookValidationError
  | authorIdRequired : BookValidationError
  | authorIdNotFound : BookValidationError
  | yearNotNumber : BookValidationError
deriving DecidableEq, Repr

/-- Embedding of `validateAuthorPayload`: fails iff
`!name || typeof name !== 'string' || !name.trim()`. -/
def validateAuthorPayload (body : CreateAuthorBody) : Option AuthorValidationError :=
  if !body.name.truthy || !body.name.isString || jsTrim body.name.asString == "" then
    some .nameRequired
  else none

/-- Embedding of `validateBookPayload`: the four checks run in source order,
first failure wins. -/
def validateBookPayload (authors : List Author) (body : CreateBookBody) :
    Option BookValidationError :=
  if !body.title.truthy || !body.title.isString || jsTrim body.title.asString == "" then
    some .titleRequired
  else if body.authorId == .undefined || !body.authorId.isNumber then
    some .authorIdRequired
  else if !(authors.any fun a => a.id == body.authorId.asNum) then
    some .authorIdNotFound
  else if !(body.year == .undefined) && !body.year.isNumber then
    some .yearNotNumber
  else none

/-! ### Responses

Route handlers answer with a status code and either a JSON body or an
`{ error: message }` body; the embedding records both. -/

/-- An HTTP response of a route handler: `ok status body` for a JSON success
body, `err status message` for the `{ error: message }` shape. -/
inductive Response (α : Type) where
  | ok : Nat → α → Response α
  | err : Nat → String → Response α
deriving DecidableEq, Repr

/-- Whether a response is a 409 Conflict. -/
def Response.isConflict : Response α → Bool
  | .err 409 _ => true
  | _ => false

/-- Whether a response is a 400 validation failure. -/
def Response.isBadRequest : Response α → Bool
  | .err 400 _ => true
  | _ => false

/-- Replace the first element satisfying `p` by its image under `f` (the
embedding of an in-place mutation of the object found by `Array.find`). -/
def updateFirst (p : α → Bool) (f : α → α) : List α → List α
  | [] => []
  | x :: xs => if p x then f x :: xs else x :: updateFirst p f xs

/-- Remove the first element satisfying `p` (the embedding of
`array.splice(array.findIndex(p), 1)`). -/
def removeFirst (p : α → Bool) : List α → List α
  | [] => []
  | x :: xs => if p x then xs else x :: removeFirst p xs

/-! ### Authors router (`src/routes/authors.ts`) -/

/-- POST `/authors`: validation, then the case-insensitive duplicate-name
check against the trimmed new name, then `getNextAuthorId` and push. -/
def postAuthor (st : LibraryState) (body : CreateAuthorBody) :
    Response Author × LibraryState :=
  match validateAuthorPayload body with
  | some _ =>
    (.err 400 "Author validation failed: \"name\" is required (non-empty string).", st)
  | none =>
    let name := body.name.asString
    match st.authors.find? (fun a => jsToLower a.name == jsToLower (jsTrim name)) with
    | some _ => (.err 409 "Author already exists.", st)
    | none =>
      let author : Author := ⟨getNextAuthorId st.authors, jsTrim name, body.bio⟩
      (.ok 201 author, { st with authors := st.authors ++ [author] })

/-- GET `/authors/:id`. -/
def getAuthor (st : LibraryState) (id : Int) : Response Author :=
  match st.authors.find? (fun a => a.id == id) with
  | none => .err 404 "Author not found."
  | some a => .ok 200 a

/-- PUT `/authors/:id`: validation, 404 lookup, duplicate-name check against
other authors, then in-place mutation of `name` and `bio`. -/
def putAuthor (st : LibraryState) (id : Int) (body : CreateAuthorBody) :
    Response Author × LibraryState :=
  match validateAuthorPayload body with
  | some _ =>
    (.err 400 "Author validation failed: \"name\" is required (non-empty string).", st)
  | none =>
    match st.authors.find? (fun a => a.id == id) with
    | none => (.err 404 "Author not found.", st)
    | some author =>
      let name := body.name.asString
      match st.authors.find?
          (fun a => jsToLower a.name == jsToLower (jsTrim name) && !(a.id == id)) with
      | some _ => (.err 409 "Another author with the same name exists.", st)
      | none =>
        let updatedAuthors :=
          updateFirst (fun a => a.id == id)
            (fun a => { a with name := jsTrim name, bio := body.bio }) st.authors
        (.ok 200 { author with name := jsTrim name, bio := body.bio },
         { st with authors := updatedAuthors })

/-- DELETE `/authors/:id`: 404 lookup, cascade removal of every book with
this `authorId` (the reverse-iteration splice loop removes exactly the books
whose `authorId` matches, keeping the rest in order), then removal of the
author record. -/
def deleteAuthor (st : LibraryState) (id : Int) : Response Author × LibraryState :=
  match st.authors.find? (fun a => a.id == id) with
  | none => (.err 404 "Author not found.", st)
  | some author =>
    (.ok 200 author,
     { authors := removeFirst (fun a => a.id == id) st.authors,
       books := st.books.filter (fun b => !(b.authorId == id)) })

/-- GET `/authors/:id/books`: 404 when the author is missing, otherwise the
filter of the books table by `authorId`. -/
def getAuthorBooks (st : LibraryState) (id : Int) : Response (List Book) :=
  match st.authors.find? (fun a => a.id == id) with
  | none => .err 404 "Author not found."
  | some _ => .ok 200 (st.books.filter (fun b => b.authorId == id))

/-! ### Books router, CRUD part (`src/routes/books.ts`) -/

/-- The `{ error }` message for each book validation failure (the exact
strings of `validateBookPayload`). -/
def bookErrorMessage : BookValidationError → String
  | .titleRequired => "Book validation failed: \"title\" is required (non-empty string)."
  | .authorIdRequired => "Book validation failed: \"authorId\" is required (number)."
  | .authorIdNotFound => "Book validation failed: referenced authorId does not exist."
  | .yearNotNumber => "Book validation failed: \"year\" must be a number if provided."

/-- POST `/books`: validation, the duplicate check on (case-insensitive
title, same `authorId`), then `getNextBookId` and push of the trimmed
title. -/
def postBook (st : LibraryState) (body : CreateBookBody) :
    Response Book × LibraryState :=
  match validateBookPayload st.authors body with
  | some e => (.err 400 (bookErrorMessage e), st)
  | none =>
    let title := body.title.asString
    let authorId := body.authorId.asNum
    match st.books.find?
        (fun b => jsToLower b.title == jsToLower (jsTrim title) && b.authorId == authorId) with
    | some _ => (.err 409 "Duplicate book for this author.", st)
    | none =>
      let book : Book := ⟨getNextBookId st.books, jsTrim title, body.year.asOptNum, authorId⟩
      (.ok 201 book, { st with books := st.books ++ [book] })

/-- GET `/books/:id`. -/
def getBook (st : LibraryState) (id : Int) : Response Book :=
  match st.books.find? (fun b => b.id == id) with
  | none => .err 404 "Book not found."
  | some b => .ok 200 b

/-- PUT `/books/:id`: validation, 404 lookup, duplicate check excluding the
record itself (`b.id !== id`), then in-place mutation of `title`, `year`
and `authorId`. -/
def putBook (st : LibraryState) (id : Int) (body : CreateBookBody) :
    Response Book × LibraryState :=
  match validateBookPayload st.authors body with
  | some e => (.err 400 (bookErrorMessage e), st)
  | none =>
    match st.books.find? (fun b => b.id == id) with
    | none => (.err 404 "Book not found.", st)
    | some book =>
      let title := body.title.asString
      let authorId := body.authorId.asNum
      match st.books.find?
          (fun b => jsToLower b.title == jsToLower (jsTrim title)
            && b.authorId == authorId && !(b.id == id)) with
      | some _ => (.err 409 "Another book with same title & author exists.", st)
      | none =>
        let setFields : Book → Book := fun b =>
          { b with title := jsTrim title, year := body.year.asOptNum, authorId := authorId }
        let updatedBooks := updateFirst (fun b => b.id == id) setFields st.books
        (.ok 200 (setFields book), { st with books := updatedBooks })

/-- DELETE `/books/:id`: 404 lookup, then splice of the found record (no
cascade). -/
def deleteBook (st : LibraryState) (id : Int) : Response Book × LibraryState :=
  match st.books.find? (fun b => b.id == id) with
  | none => (.err 404 "Book not found.", st)
  | some b =>
    (.ok 200 b, { st with books := removeFirst (fun x => x.id == id) st.books })

/-! ### Books listing query pipeline (GET `/books` in `src/routes/books.ts`)

Query-string parameters arrive as strings.  The embedding keeps `title`,
`author` and `sort` as the raw strings (absent = `none`); `year`, `limit`
and `page` are embedded as the parsed number when the parameter is present
and numeric, and as `none` when the parameter is absent — for these three
the source skips the corresponding stage (`isNaN` guard for `year`, a `NaN`
value falling through the `if (lim)` truthiness test for `limit`) or falls
back to the default (`page`), which coincides with the `none` branch of the
embedding on every input the claims quantify over. -/

/-- The query parameters of GET `/books` (`BookQueryParams`). -/
structure BookQueryParams where
  title : Option String
  author : Option String
  year : Option Int
  sort : Option String
  limit : Option Int
  page : Option Int
deriving DecidableEq, Repr

/-- The `VALID_SORT_FIELDS` allow-list. -/
def VALID_SORT_FIELDS : List String := ["title", "year", "id", "authorId"]

/-- A JS property value read from a Book by the sort comparator: a string
(`title`), a number (`id`, `authorId`, present `year`), or `undefined`
(absent `year`, or an unknown property name). -/
inductive FieldVal where
  | vstr : String → FieldVal
  | vint : Int → FieldVal
  | vundefined : FieldVal
deriving DecidableEq, Repr

/-- The property access `b[field]` performed by the comparator. -/
def Book.getField (b : Book) (field : String) : FieldVal :=
  if field = "title" then .vstr b.title
  else if field = "year" then
    match b.year with
    | some y => .vint y
    | none => .vundefined
  else if field = "id" then .vint b.id
  else if field = "authorId" then .vint b.authorId
  else .vundefined

/-- The JS `<` comparison between two defined property values: lexicographic
for strings, numeric for numbers; a string/number mix (which never occurs
for a valid sort field) compares false both ways in JS, as here. -/
def fieldLt : FieldVal → FieldVal → Bool
  | .vstr s, .vstr t => decide (s < t)
  | .vint m, .vint n => decide (m < n)
  | _, _ => false

/-- The sort comparator of GET `/books`: `undefined` values are pushed to
the end regardless of direction, then `<`/`>` comparisons are flipped when
descending. -/
def bookCompare (field : String) (isDescending : Bool) (a b : Book) : Int :=
  let valA := a.getField field
  let valB := b.getField field
  if valA = .vundefined && valB = .vundefined then 0
  else if valA = .vundefined then 1
  else if valB = .vundefined then -1
  else if fieldLt valA valB then (if isDescending then 1 else -1)
  else if fieldLt valB valA then (if isDescending then -1 else 1)
  else 0

/-- The sort stage after parsing: guarded by the `VALID_SORT_FIELDS`
allow-list (an unrecognized field leaves the list untouched), then
`results.sort(comparator)` — `Array.prototype.sort` is stable (ES2019), so
it is embedded as Mathlib's stable insertion sort over the comparator. -/
def sortParsed (field : String) (dir : Option String) (results : List Book) : List Book :=
  if VALID_SORT_FIELDS.contains field then
    List.insertionSort (fun a b => bookCompare field (dir == some "desc") a b ≤ 0) results
  else results

/-- The whole sort stage: `const [field, dir] = sort.split('_')`. -/
def sortBooks (sort : String) (results : List Book) : List Book :=
  let parts := jsSplit '_' sort
  sortParsed (parts.headD "") parts[1]? results

/-- The title filter predicate: case-insensitive substring match. -/
def titleMatches (t : String) (b : Book) : Bool :=
  jsIncludes (jsToLower b.title) (jsToLower t)

/-- The year filter predicate: strict equality `b.year === yearNum`
(a book without a year never matches). -/
def yearMatches (y : Int) (b : Book) : Bool := b.year == some y

/-- The title filter stage (`if (title && typeof title === 'string')`: an
absent or empty parameter skips the stage). -/
def titleFilter (title : Option String) (results : List Book) : List Book :=
  match title with
  | some t => if t == "" then results else results.filter (titleMatches t)
  | none => results

/-- The author-name filter stage: the matching author ids are computed from
the full authors table, then books are kept by membership. -/
def authorFilter (authors : List Author) (author : Option String) (results : List Book) :
    List Book :=
  match author with
  | some a =>
    if a == "" then results
    else
      let matchingAuthorIds :=
        (authors.filter fun x => jsIncludes (jsToLower x.name) (jsToLower a)).map (·.id)
      results.filter (fun b => matchingAuthorIds.contains b.authorId)
  | none => results

/-- The year filter stage. -/
def yearFilter (year : Option Int) (results : List Book) : List Book :=
  match year with
  | some y => results.filter (yearMatches y)
  | none => results

/-- The pagination stage: `limit` floored at 1 when present, `page` floored
at 1 defaulting to 1, then `results.slice(start, start + lim)` with
`start = (pg - 1) * lim`; no pagination at all when `limit` is absent. -/
def paginate (limit page : Option Int) (results : List Book) : List Book :=
  let pg : Int := match page with | some p => max 1 p | none => 1
  match limit with
  | some n =>
    let lim := max 1 n
    (results.drop ((pg - 1) * lim).toNat).take lim.toNat
  | none => results

/-- GET `/books`: the full pipeline, stages applied strictly in order on the
survivors of the previous stage (title filter → author filter → year filter
→ sort → pagination). -/
def listBooks (st : LibraryState) (q : BookQueryParams) : List Book :=
  let results := st.books
  let results := titleFilter q.title results
  let results := authorFilter st.authors q.author results
  let results := yearFilter q.year results
  let results :=
    match q.sort with
    | some s => if s == "" then results else sortBooks s results
    | none => results
  paginate q.limit q.page results

/-! ### The request step relation

Mutating requests are the six create/update/delete handlers; reads do not
change the state.  A state is reachable when some sequence of requests
produces it from the empty initial store. -/

/-- A mutating HTTP request. -/
inductive Request where
  | authorCreate : CreateAuthorBody → Request
  | authorUpdate : Int → CreateAuthorBody → Request
  | authorDelete : Int → Request
  | bookCreate : CreateBookBody → Request
  | bookUpdate : Int → CreateBookBody → Request
  | bookDelete : Int → Request

/-- The state after serving one request. -/
def applyRequest (st : LibraryState) : Request → LibraryState
  | .authorCreate body => (postAuthor st body).2
  | .authorUpdate id body => (putAuthor st id body).2
  | .authorDelete id => (deleteAuthor st id).2
  | .bookCreate body => (postBook st body).2
  | .bookUpdate id body => (putBook st id body).2
  | .bookDelete id => (deleteBook st id).2

/-- The states reachable from the empty store by any request sequence. -/
inductive Reachable : LibraryState → Prop where
  | init : Reachable initialState
  | step (r : Request) {st : LibraryState} :
      Reachable st → Reachable (applyRequest st r)

/-! ### The state invariant

The conjunction of the structural invariants that every reachable state
satisfies: referential integrity, ID uniqueness and positivity, uniqueness
of the (lowercased title, authorId) pair, and the normalization facts about
stored titles that the routers maintain. -/

/-- Every book's `authorId` references an existing author. -/
def RefIntegrity (st : LibraryState) : Prop :=
  ∀ b ∈ st.books, ∃ a ∈ st.authors, a.id = b.authorId

/-- No two distinct books share the (lowercased title, authorId) pair. -/
def BookPairsUnique (st : LibraryState) : Prop :=
  st.books.Pairwise fun b₁ b₂ =>
    ¬(jsToLower b₁.title = jsToLower b₂.title ∧ b₁.authorId = b₂.authorId)

/-- The inductive invariant maintained by all six mutating handlers. -/
structure GoodState (st : LibraryState) : Prop where
  refInt : RefIntegrity st
  authorIdsNodup : (st.authors.map (·.id)).Nodup
  bookIdsNodup : (st.books.map (·.id)).Nodup
  pairsUnique : BookPairsUnique st
  titlesTrimmed : ∀ b ∈ st.books, jsTrim b.title = b.title
  titlesNonempty : ∀ b ∈ st.books, b.title ≠ ""
  authorIdsPos : ∀ a ∈ st.authors, 1 ≤ a.id
  bookIdsPos : ∀ b ∈ st.books, 1 ≤ b.id

/-! ### Spec-side validation checks

The four checks of the spec's Book-payload validation order, stated
independently of the validator's `if` chain. -/

/-- Check 1: `title` is a string that is non-empty after trimming. -/
def TitleOk (body : CreateBookBody) : Prop :=
  ∃ s, body.title = .str s ∧ jsTrim s ≠ ""

/-- Check 2: `authorId` is present and numeric. -/
def AuthorIdNumeric (body : CreateBookBody) : Prop :=
  ∃ n, body.authorId = .num n

/-- Check 3: `authorId` resolves to an existing Author. -/
def AuthorResolves (authors : List Author) (body : CreateBookBody) : Prop :=
  ∃ n, body.authorId = .num n ∧ ∃ a ∈ authors, a.id = n

/-- Check 4: `year`, when present, is numeric. -/
def YearOk (body : CreateBookBody) : Prop :=
  body.year = .undefined ∨ ∃ m, body.year = .num m

/-! ### Claim-side definitions for the sort stage -/

/-- The claim-side per-field ordering: books missing the sort field's value
come after all books that have one, regardless of direction; present values
compare by the field's natural ordering (lexicographic for the string field,
numeric otherwise), reversed when descending. -/
def sortSpecLe (field : String) (descending : Bool) (a b : Book) : Prop :=
  match a.getField field, b.getField field with
  | _, .vundefined => True
  | .vundefined, _ => False
  | .vstr s, .vstr t => if descending then t ≤ s else s ≤ t
  | .vint m, .vint n => if descending then n ≤ m else m ≤ n
  | _, _ => True

/-- A field whose value on every book is a number or absent. -/
def IntLikeField (f : String) : Prop :=
  ∀ b : Book, b.getField f = .vundefined ∨ ∃ n, b.getField f = .vint n

/-- A field whose value on every book is a string. -/
def StrLikeField (f : String) : Prop :=
  ∀ b : Book, ∃ s, b.getField f = .vstr s

/-! ### Concrete states used by the witnesses -/

/-- A two-author, three-book state (authors 1 and 2; books 1, 2 of author 1
and book 3 of author 2), built by five requests from the empty store. -/
def cascadeWitnessState : LibraryState :=
  applyRequest (applyRequest (applyRequest (applyRequest (applyRequest initialState
    (.authorCreate ⟨.str "Ada", none⟩))
    (.authorCreate ⟨.str "Bob", none⟩))
    (.bookCreate ⟨.str "X", .num 2000, .num 1⟩))
    (.bookCreate ⟨.str "Y", .undefined, .num 1⟩))
    (.bookCreate ⟨.str "Z", .num 2001, .num 2⟩)

/-- A one-author, two-book state used by the C8 witness. -/
def idWitnessState : LibraryState :=
  applyRequest (applyRequest (applyRequest initialState
    (.authorCreate ⟨.str "Ada", none⟩))
    (.bookCreate ⟨.str "X", .num 2000, .num 1⟩))
    (.bookCreate ⟨.str "Y", .undefined, .num 1⟩)

/-- A state whose author 2 carries a stored bio, used by the C10 witness. -/
def c10AuthorState : LibraryState :=
  ⟨[⟨1, "Bob", none⟩, ⟨2, "Ada", some "old bio"⟩], []⟩

/-- A state whose book 3 carries a stored year, used by the C10 witness. -/
def c10BookState : LibraryState :=
  ⟨[⟨1, "Bob", none⟩, ⟨2, "Ada", none⟩], [⟨3, "Old", some 1990, 1⟩]⟩

/-- A one-author, one-book state used by the book-uniqueness witness. -/
def uniqWitnessState : LibraryState :=
  applyRequest (applyRequest initialState
    (.authorCreate ⟨.str "Ada", none⟩))
    (.bookCreate ⟨.str "X", .num 2000, .num 1⟩)

/-- The three-book list of the C4 sort witness. -/
def sortWitnessBooks : List Book :=
  [⟨1, "A", some 2000, 1⟩, ⟨2, "B", none, 1⟩, ⟨3, "C", some 1999, 1⟩]

/-- The five-book state of the C5 pagination witness. -/
def pageWitnessBooks : List Book :=
  [⟨1, "A", none, 1⟩, ⟨2, "B", none, 1⟩, ⟨3, "C", none, 1⟩,
   ⟨4, "D", none, 1⟩, ⟨5, "E", none, 1⟩]

/-! ### Helper lemmas about the JS string primitives -/

theorem dropWhile_dropWhile (p : α → Bool) (l : List α) :
    (l.dropWhile p).dropWhile p = l.dropWhile p := by
  induction l with
  | nil => rfl
  | cons x xs ih =>
    by_cases h : p x <;> simp [List.dropWhile_cons, h, ih]

theorem head?_dropWhile_false (p : α → Bool) (l : List α) {x : α}
    (h : (l.dropWhile p).head? = some x) : p x = false := by
  induction l with
  | nil => simp at h
  | cons y ys ih =>
    by_cases hy : p y
    · rw [List.dropWhile_cons, if_pos hy] at h
      exact ih h
    · rw [List.dropWhile_cons, if_neg hy] at h
      simp at h
      subst h
      simpa using hy

theorem trimChars_idem (l : List Char) : trimChars (trimChars l) = trimChars l := by
  unfold trimChars
  set A := l.dropWhile Char.isWhitespace with hA
  set B := A.reverse.dropWhile Char.isWhitespace with hB
  have hBsuf : B <:+ A.reverse := by rw [hB]; exact List.dropWhile_suffix _
  have hpre : B.reverse <+: A := by
    rw [← List.reverse_reverse A]
    exact List.reverse_prefix.mpr hBsuf
  have hdropB : B.reverse.dropWhile Char.isWhitespace = B.reverse := by
    cases hBr : B.reverse with
    | nil => rfl
    | cons c cs =>
      have hc : Char.isWhitespace c = false := by
        obtain ⟨t, ht⟩ := hpre
        rw [hBr] at ht
        have : A.head? = some c := by rw [← ht]; rfl
        rw [hA] at this
        exact head?_dropWhile_false _ _ this
      rw [List.dropWhile_cons, hc]
      simp
  rw [hdropB, List.reverse_reverse, hB, dropWhile_dropWhile]

theorem jsTrim_idem (s : String) : jsTrim (jsTrim s) = jsTrim s :=
  congrArg String.mk (trimChars_idem s.data)

theorem jsTrim_empty : jsTrim "" = "" := rfl

theorem jsTrim_ne_empty_of {s : String} (h : jsTrim s ≠ "") : s ≠ "" := by
  intro hs
  exact h (by rw [hs]; rfl)

/-! ### Helper lemmas about `updateFirst`, `removeFirst`, `find?` -/

theorem updateFirst_map (p : α → Bool) (f : α → α) (g : α → β)
    (h : ∀ x, g (f x) = g x) : ∀ l : List α, (updateFirst p f l).map g = l.map g
  | [] => rfl
  | x :: xs => by
    by_cases hx : p x <;>
      simp [updateFirst, hx, h, updateFirst_map p f g h xs]

theorem mem_updateFirst {p : α → Bool} {f : α → α} {x : α} :
    ∀ {l : List α}, x ∈ updateFirst p f l →
      x ∈ l ∨ ∃ y ∈ l, p y = true ∧ x = f y := by
  intro l
  induction l with
  | nil => intro hx; simp [updateFirst] at hx
  | cons y ys ih =>
    intro hx
    by_cases hy : p y
    · rw [updateFirst, if_pos hy] at hx
      rcases List.mem_cons.mp hx with rfl | hx
      · exact Or.inr ⟨y, List.mem_cons_self _ _, hy, rfl⟩
      · exact Or.inl (List.mem_cons_of_mem _ hx)
    · rw [updateFirst, if_neg hy] at hx
      rcases List.mem_cons.mp hx with rfl | hx
      · exact Or.inl (List.mem_cons_self _ _)
      · rcases ih hx with hx | ⟨z, hz, hpz, rfl⟩
        · exact Or.inl (List.mem_cons_of_mem _ hx)
        · exact Or.inr ⟨z, List.mem_cons_of_mem _ hz, hpz, rfl⟩

theorem removeFirst_sublist (p : α → Bool) :
    ∀ l : List α, List.Sublist (removeFirst p l) l
  | [] => List.Sublist.refl _
  | x :: xs => by
    by_cases hx : p x
    · rw [removeFirst, if_pos hx]
      exact List.sublist_cons_self x xs
    · rw [removeFirst, if_neg hx]
      exact (removeFirst_sublist p xs).cons₂ x

theorem mem_removeFirst_of_not {p : α → Bool} {x : α} :
    ∀ {l : List α}, x ∈ l → p x = false → x ∈ removeFirst p l
  | [], hx, _ => by simp at hx
  | y :: ys, hx, hpx => by
    by_cases hy : p y
    · rw [removeFirst, if_pos hy]
      rcases List.mem_cons.mp hx with rfl | h
      · rw [hy] at hpx; cases hpx
      · exact h
    · rw [removeFirst, if_neg hy]
      rcases List.mem_cons.mp hx with rfl | h
      · exact List.mem_cons_self _ _
      · exact List.mem_cons_of_mem _ (mem_removeFirst_of_not h hpx)

theorem removeFirst_eq_filter {g : α → Int} {v : Int} :
    ∀ {l : List α}, (l.map g).Nodup →
      removeFirst (fun x => g x == v) l = l.filter (fun x => !(g x == v))
  | [], _ => rfl
  | x :: xs, h => by
    rw [List.map_cons, List.nodup_cons] at h
    obtain ⟨hx, hxs⟩ := h
    by_cases hgx : g x = v
    · have hfilter : xs.filter (fun y => !(g y == v)) = xs := by
        apply List.filter_eq_self.mpr
        intro y hy
        have hne : g y ≠ v := fun hgy => hx (by
          rw [hgx, ← hgy]; exact List.mem_map_of_mem g hy)
        simpa using hne
      have hgxb : (g x == v) = true := by simpa using hgx
      simp [removeFirst, hgxb, List.filter_cons, hfilter]
    · have hgxb : (g x == v) = false := by simpa using hgx
      simp [removeFirst, hgxb, List.filter_cons, removeFirst_eq_filter hxs]

theorem find?_decomp {p : α → Bool} :
    ∀ {l : List α} {a : α}, l.find? p = some a →
      ∃ l₁ l₂, l = l₁ ++ a :: l₂ ∧ (∀ x ∈ l₁, p x = false) ∧ p a = true
  | [], a, h => by simp at h
  | x :: xs, a, h => by
    by_cases hx : p x
    · rw [List.find?_cons_of_pos _ hx] at h
      injection h with h
      subst h
      exact ⟨[], xs, rfl, by simp, hx⟩
    · rw [List.find?_cons_of_neg _ (by simpa using hx)] at h
      obtain ⟨l₁, l₂, rfl, h₁, ha⟩ := find?_decomp h
      exact ⟨x :: l₁, l₂, rfl, by
        intro y hy
        rcases List.mem_cons.mp hy with rfl | hy
        · simpa using hx
        · exact h₁ y hy, ha⟩

theorem updateFirst_append (p : α → Bool) (f : α → α) :
    ∀ (l₁ : List α) (a : α) (l₂ : List α), (∀ x ∈ l₁, p x = false) → p a = true →
      updateFirst p f (l₁ ++ a :: l₂) = l₁ ++ f a :: l₂
  | [], a, l₂, _, ha => by simp [updateFirst, ha]
  | x :: xs, a, l₂, h₁, ha => by
    have hx : p x = false := h₁ x (List.mem_cons_self _ _)
    rw [List.cons_append, updateFirst, if_neg (by simp [hx]),
      updateFirst_append p f xs a l₂ (fun y hy => h₁ y (List.mem_cons_of_mem _ hy)) ha]
    rfl

/-! ### Helper lemmas about the ID generators -/

theorem le_foldl_max : ∀ (l : List Int) (a : Int), a ≤ l.foldl max a
  | [], _ => le_refl _
  | x :: xs, a => le_trans (le_max_left a x) (le_foldl_max xs (max a x))

theorem foldl_max_of_mem {x : Int} :
    ∀ (l : List Int) (a : Int), x ∈ l → x ≤ l.foldl max a
  | [], _, h => by simp at h
  | y :: ys, a, h => by
    rcases List.mem_cons.mp h with rfl | h
    · exact le_trans (le_max_right a x) (le_foldl_max ys (max a x))
    · exact foldl_max_of_mem ys (max a y) h

theorem lt_getNextAuthorId {a : Author} (authors : List Author) (h : a ∈ authors) :
    a.id < getNextAuthorId authors := by
  have hne : authors.length ≠ 0 := by
    cases authors with
    | nil => simp at h
    | cons x xs => simp
  rw [getNextAuthorId, if_neg hne]
  have hmem : a.id ∈ authors.map (·.id) := List.mem_map_of_mem _ h
  have : a.id ≤ maxOfList (authors.map (·.id)) := by
    cases hm : authors.map (·.id) with
    | nil => rw [hm] at hmem; simp at hmem
    | cons x xs =>
      rw [hm] at hmem
      rw [maxOfList]
      rcases List.mem_cons.mp hmem with rfl | hmem
      · exact le_foldl_max xs a.id
      · exact foldl_max_of_mem xs x hmem
  omega

theorem getNextBookId_eq_foldl (books : List Book) :
    getNextBookId books = (books.map (·.id)).foldl max 0 + 1 := by
  rw [getNextBookId, List.foldl_map]

theorem lt_getNextBookId {b : Book} (books : List Book) (h : b ∈ books) :
    b.id < getNextBookId books := by
  rw [getNextBookId_eq_foldl]
  have : b.id ≤ (books.map (·.id)).foldl max 0 :=
    foldl_max_of_mem _ 0 (List.mem_map_of_mem _ h)
  omega

theorem getNextAuthorId_pos (authors : List Author) (h : ∀ a ∈ authors, 1 ≤ a.id) :
    1 ≤ getNextAuthorId authors := by
  cases authors with
  | nil => simp [getNextAuthorId]
  | cons x xs =>
    have := lt_getNextAuthorId (a := x) (x :: xs) (List.mem_cons_self _ _)
    have := h x (List.mem_cons_self _ _)
    omega

theorem getNextBookId_pos (books : List Book) : 1 ≤ getNextBookId books := by
  rw [getNextBookId_eq_foldl]
  have := le_foldl_max (books.map (·.id)) 0
  omega

theorem goodState_initial : GoodState initialState := by
  constructor <;> simp [initialState, RefIntegrity, BookPairsUnique]

theorem titleCond_false_iff (body : CreateBookBody) :
    (!body.title.truthy || !body.title.isString
      || jsTrim body.title.asString == "") = false ↔ TitleOk body := by
  cases htitle : body.title with
  | str s =>
    by_cases hs : s = ""
    · subst hs
      simp [JsVal.truthy, JsVal.isString, JsVal.asString, jsTrim_empty, TitleOk, htitle]
    · simp [JsVal.truthy, JsVal.isString, JsVal.asString, hs, TitleOk, htitle]
  | undefined => simp [JsVal.truthy, TitleOk, htitle]
  | num n => simp [JsVal.truthy, JsVal.isString, TitleOk, htitle]
  | other => simp [JsVal.truthy, JsVal.isString, TitleOk, htitle]

theorem authorIdCond_false_iff (body : CreateBookBody) :
    (body.authorId == JsVal.undefined || !body.authorId.isNumber) = false
      ↔ AuthorIdNumeric body := by
  cases h : body.authorId with
  | num n => simp [JsVal.isNumber, AuthorIdNumeric, h]
  | undefined => simp [JsVal.isNumber, AuthorIdNumeric, h]
  | str s => simp [JsVal.isNumber, AuthorIdNumeric, h]
  | other => simp [JsVal.isNumber, AuthorIdNumeric, h]

theorem authorExistsCond_false_iff (authors : List Author) (body : CreateBookBody)
    (hnum : AuthorIdNumeric body) :
    (!(authors.any fun a => a.id == body.authorId.asNum)) = false
      ↔ AuthorResolves authors body := by
  obtain ⟨n, hn⟩ := hnum
  simp [hn, JsVal.asNum, AuthorResolves, List.any_eq_true]

theorem yearCond_false_iff (body : CreateBookBody) :
    (!(body.year == JsVal.undefined) && !body.year.isNumber) = false ↔ YearOk body := by
  cases h : body.year with
  | num m => simp [JsVal.isNumber, YearOk, h]
  | undefined => simp [JsVal.isNumber, YearOk, h]
  | str s => simp [JsVal.isNumber, YearOk, h]
  | other => simp [JsVal.isNumber, YearOk, h]

theorem validateBookPayload_none_iff (authors : List Author) (body : CreateBookBody) :
    validateBookPayload authors body = none ↔
      TitleOk body ∧ AuthorIdNumeric body ∧ AuthorResolves authors body ∧ YearOk body := by
  constructor
  · intro h
    by_cases h1 : (!body.title.truthy || !body.title.isString
        || jsTrim body.title.asString == "") = true
    · rw [validateBookPayload, if_pos h1] at h; cases h
    · have hT : TitleOk body := (titleCond_false_iff body).mp (by simpa using h1)
      by_cases h2 : (body.authorId == JsVal.undefined || !body.authorId.isNumber) = true
      · rw [validateBookPayload, if_neg h1, if_pos h2] at h; cases h
      · have hN : AuthorIdNumeric body := (authorIdCond_false_iff body).mp (by simpa using h2)
        by_cases h3 : (!(authors.any fun a => a.id == body.authorId.asNum)) = true
        · rw [validateBookPayload, if_neg h1, if_neg h2, if_pos h3] at h; cases h
        · have hR : AuthorResolves authors body :=
            (authorExistsCond_false_iff authors body hN).mp (by simpa using h3)
          by_cases h4 : (!(body.year == JsVal.undefined) && !body.year.isNumber) = true
          · rw [validateBookPayload, if_neg h1, if_neg h2, if_neg h3, if_pos h4] at h
            cases h
          · exact ⟨hT, hN, hR,
              (yearCond_false_iff body).mp (by simpa using h4)⟩
  · rintro ⟨hT, hN, hR, hY⟩
    rw [validateBookPayload,
      if_neg (by simp [(titleCond_false_iff body).mpr hT]),
      if_neg (by simp [(authorIdCond_false_iff body).mpr hN]),
      if_neg (by simp [(authorExistsCond_false_iff authors body hN).mpr hR]),
      if_neg (by simp [(yearCond_false_iff body).mpr hY])]

theorem validateAuthorPayload_none_iff (body : CreateAuthorBody) :
    validateAuthorPayload body = none ↔ ∃ s, body.name = .str s ∧ jsTrim s ≠ "" := by
  cases hname : body.name with
  | str s =>
    by_cases hs : s = ""
    · subst hs
      simp [validateAuthorPayload, hname, JsVal.truthy, JsVal.isString, JsVal.asString,
        jsTrim_empty]
    · simp [validateAuthorPayload, hname, JsVal.truthy, JsVal.isString, JsVal.asString, hs]
  | undefined => simp [validateAuthorPayload, hname, JsVal.truthy]
  | num n => simp [validateAuthorPayload, hname, JsVal.truthy, JsVal.isString]
  | other => simp [validateAuthorPayload, hname, JsVal.truthy, JsVal.isString]

/-! ### Preservation of the invariant by each mutating handler -/

theorem refIntegrity_iff_map (st : LibraryState) :
    RefIntegrity st ↔ ∀ b ∈ st.books, b.authorId ∈ st.authors.map (·.id) := by
  unfold RefIntegrity
  constructor
  · intro h b hb
    obtain ⟨a, ha, haid⟩ := h b hb
    exact List.mem_map.mpr ⟨a, ha, haid⟩
  · intro h b hb
    obtain ⟨a, ha, haid⟩ := List.mem_map.mp (h b hb)
    exact ⟨a, ha, haid⟩

theorem goodState_postAuthor (st : LibraryState) (body : CreateAuthorBody)
    (h : GoodState st) : GoodState (postAuthor st body).2 := by
  rcases hv : validateAuthorPayload body with _ | e
  case some => simpa only [postAuthor, hv] using h
  rcases hf : st.authors.find?
      (fun a => jsToLower a.name == jsToLower (jsTrim body.name.asString)) with _ | a
  case some => simpa only [postAuthor, hv, hf] using h
  simp only [postAuthor, hv, hf]
  refine ⟨?_, ?_, h.bookIdsNodup, h.pairsUnique, h.titlesTrimmed, h.titlesNonempty,
    ?_, h.bookIdsPos⟩
  · intro b hb
    obtain ⟨a, ha, haid⟩ := h.refInt b hb
    exact ⟨a, List.mem_append_left _ ha, haid⟩
  · rw [List.map_append]
    refine List.Nodup.append h.authorIdsNodup (by simp) ?_
    intro x hx hx'
    simp only [List.map_cons, List.map_nil, List.mem_singleton] at hx'
    obtain ⟨a, ha, haid⟩ := List.mem_map.mp hx
    have := lt_getNextAuthorId st.authors ha
    omega
  · intro a ha
    rcases List.mem_append.mp ha with ha | ha
    · exact h.authorIdsPos a ha
    · have := getNextAuthorId_pos st.authors h.authorIdsPos
      simp only [List.mem_singleton] at ha
      subst ha
      simpa using this

theorem goodState_putAuthor (st : LibraryState) (id : Int) (body : CreateAuthorBody)
    (h : GoodState st) : GoodState (putAuthor st id body).2 := by
  rcases hv : validateAuthorPayload body with _ | e
  case some => simpa only [putAuthor, hv] using h
  rcases hfind : st.authors.find? (fun a => a.id == id) with _ | author
  case none => simpa only [putAuthor, hv, hfind] using h
  rcases hdup : st.authors.find?
      (fun a => jsToLower a.name == jsToLower (jsTrim body.name.asString)
        && !(a.id == id)) with _ | d
  case some => simpa only [putAuthor, hv, hfind, hdup] using h
  simp only [putAuthor, hv, hfind, hdup]
  have hmap : (updateFirst (fun a => a.id == id)
      (fun a => { a with name := jsTrim body.name.asString, bio := body.bio })
      st.authors).map (·.id) = st.authors.map (·.id) :=
    updateFirst_map (fun a => a.id == id)
      (fun a => { a with name := jsTrim body.name.asString, bio := body.bio })
      (·.id) (fun x => rfl) st.authors
  refine ⟨?_, ?_, h.bookIdsNodup, h.pairsUnique, h.titlesTrimmed, h.titlesNonempty,
    ?_, h.bookIdsPos⟩
  · rw [refIntegrity_iff_map]
    intro b hb
    simp only [hmap]
    exact (refIntegrity_iff_map st).mp h.refInt b hb
  · rw [hmap]
    exact h.authorIdsNodup
  · intro a ha
    rcases mem_updateFirst ha with ha | ⟨y, hy, _, rfl⟩
    · exact h.authorIdsPos a ha
    · exact h.authorIdsPos y hy

theorem goodState_deleteAuthor (st : LibraryState) (id : Int)
    (h : GoodState st) : GoodState (deleteAuthor st id).2 := by
  rcases hf : st.authors.find? (fun a => a.id == id) with _ | author
  case none => simpa only [deleteAuthor, hf] using h
  simp only [deleteAuthor, hf]
  refine ⟨?_, ?_, ?_, ?_, ?_, ?_, ?_, ?_⟩
  · intro b hb
    have hb' := List.mem_filter.mp hb
    obtain ⟨a, ha, haid⟩ := h.refInt b hb'.1
    have hbne : b.authorId ≠ id := by simpa using hb'.2
    refine ⟨a, mem_removeFirst_of_not ha ?_, haid⟩
    simp [haid, hbne]
  · exact h.authorIdsNodup.sublist ((removeFirst_sublist _ _).map _)
  · exact h.bookIdsNodup.sublist ((List.filter_sublist _).map _)
  · exact h.pairsUnique.sublist (List.filter_sublist _)
  · intro b hb
    exact h.titlesTrimmed b (List.mem_of_mem_filter hb)
  · intro b hb
    exact h.titlesNonempty b (List.mem_of_mem_filter hb)
  · intro a ha
    exact h.authorIdsPos a ((removeFirst_sublist _ _).subset ha)
  · intro b hb
    exact h.bookIdsPos b (List.mem_of_mem_filter hb)

theorem goodState_postBook (st : LibraryState) (body : CreateBookBody)
    (h : GoodState st) : GoodState (postBook st body).2 := by
  rcases hv : validateBookPayload st.authors body with _ | e
  case some => simpa only [postBook, hv] using h
  rcases hf : st.books.find?
      (fun b => jsToLower b.title == jsToLower (jsTrim body.title.asString)
        && b.authorId == body.authorId.asNum) with _ | b0
  case some => simpa only [postBook, hv, hf] using h
  simp only [postBook, hv, hf]
  obtain ⟨⟨s, hs, hsne⟩, ⟨n, hn⟩, hres, hY⟩ := (validateBookPayload_none_iff _ _).mp hv
  obtain ⟨n', hn', a, ha, haid⟩ := hres
  rw [hn] at hn'
  injection hn' with hn'
  subst hn'
  have hts : body.title.asString = s := by rw [hs]; rfl
  have han : body.authorId.asNum = n := by rw [hn]; rfl
  have hfin := List.find?_eq_none.mp hf
  refine ⟨?_, h.authorIdsNodup, ?_, ?_, ?_, ?_, h.authorIdsPos, ?_⟩
  · intro b hb
    rcases List.mem_append.mp hb with hb | hb
    · exact h.refInt b hb
    · simp only [List.mem_singleton] at hb
      subst hb
      exact ⟨a, ha, by simp [han, haid]⟩
  · rw [List.map_append]
    refine List.Nodup.append h.bookIdsNodup (by simp) ?_
    intro x hx hx'
    simp only [List.map_cons, List.map_nil, List.mem_singleton] at hx'
    obtain ⟨b, hb, hbid⟩ := List.mem_map.mp hx
    have := lt_getNextBookId st.books hb
    omega
  · refine List.pairwise_append.mpr ⟨h.pairsUnique, by simp, ?_⟩
    intro x hx y hy
    simp only [List.mem_singleton] at hy
    subst hy
    rintro ⟨c1, c2⟩
    exact hfin x hx (by simp_all)
  · intro b hb
    rcases List.mem_append.mp hb with hb | hb
    · exact h.titlesTrimmed b hb
    · simp only [List.mem_singleton] at hb
      subst hb
      simpa using jsTrim_idem body.title.asString
  · intro b hb
    rcases List.mem_append.mp hb with hb | hb
    · exact h.titlesNonempty b hb
    · simp only [List.mem_singleton] at hb
      subst hb
      simpa [hts] using hsne
  · intro b hb
    rcases List.mem_append.mp hb with hb | hb
    · exact h.bookIdsPos b hb
    · simp only [List.mem_singleton] at hb
      subst hb
      simpa using getNextBookId_pos st.books

theorem goodState_putBook (st : LibraryState) (id : Int) (body : CreateBookBody)
    (h : GoodState st) : GoodState (putBook st id body).2 := by
  rcases hv : validateBookPayload st.authors body with _ | e
  case some => simpa only [putBook, hv] using h
  rcases hfind : st.books.find? (fun b => b.id == id) with _ | book
  case none => simpa only [putBook, hv, hfind] using h
  rcases hdup : st.books.find?
      (fun b => jsToLower b.title == jsToLower (jsTrim body.title.asString)
        && b.authorId == body.authorId.asNum && !(b.id == id)) with _ | d
  case some => simpa only [putBook, hv, hfind, hdup] using h
  simp only [putBook, hv, hfind, hdup]
  obtain ⟨⟨s, hs, hsne⟩, ⟨n, hn⟩, hres, hY⟩ := (validateBookPayload_none_iff _ _).mp hv
  obtain ⟨n', hn', a, ha, haid⟩ := hres
  rw [hn] at hn'
  injection hn' with hn'
  subst hn'
  have hts : body.title.asString = s := by rw [hs]; rfl
  have han : body.authorId.asNum = n := by rw [hn]; rfl
  have hdupn := List.find?_eq_none.mp hdup
  obtain ⟨l₁, l₂, hdecomp, hl₁, hpbook⟩ := find?_decomp hfind
  have hbookid : book.id = id := by simpa using hpbook
  have hmap : (updateFirst (fun b => b.id == id)
      (fun b => { b with title := jsTrim body.title.asString, year := body.year.asOptNum, authorId := body.authorId.asNum })
      st.books).map (·.id) = st.books.map (·.id) :=
    updateFirst_map (fun b => b.id == id)
      (fun b => { b with title := jsTrim body.title.asString, year := body.year.asOptNum, authorId := body.authorId.asNum })
      (·.id) (fun x => rfl) st.books
  have hupd : updateFirst (fun b => b.id == id)
      (fun b => { b with title := jsTrim body.title.asString, year := body.year.asOptNum, authorId := body.authorId.asNum })
      st.books = l₁ ++ ({ book with title := jsTrim body.title.asString, year := body.year.asOptNum, authorId := body.authorId.asNum } : Book) :: l₂ := by
    rw [hdecomp]
    exact updateFirst_append _ _ l₁ book l₂ hl₁ hpbook
  have key : ∀ x ∈ st.books, x.id ≠ id →
      ¬(jsToLower x.title = jsToLower (jsTrim body.title.asString)
        ∧ x.authorId = body.authorId.asNum) := by
    rintro x hx hxid ⟨c1, c2⟩
    exact hdupn x hx (by simp [c1, c2, hxid])
  have hidsplit : (st.books.map (·.id)).Nodup := h.bookIdsNodup
  rw [hdecomp, List.map_append, List.map_cons] at hidsplit
  obtain ⟨hn1, hn2, hdisj⟩ := List.nodup_append.mp hidsplit
  have hbid_notin_l₂ : book.id ∉ l₂.map (·.id) := (List.nodup_cons.mp hn2).1
  have hbid_notin_l₁ : book.id ∉ l₁.map (·.id) := by
    intro hmem
    exact (hdisj hmem (List.mem_cons_self _ _))
  refine ⟨?_, h.authorIdsNodup, ?_, ?_, ?_, ?_, h.authorIdsPos, ?_⟩
  · intro b hb
    rcases mem_updateFirst hb with hb | ⟨y, hy, hpy, rfl⟩
    · exact h.refInt b hb
    · exact ⟨a, ha, by simp [han, haid]⟩
  · rw [hmap]
    exact h.bookIdsNodup
  · show List.Pairwise _ _
    rw [hupd]
    have horig := h.pairsUnique
    rw [BookPairsUnique, hdecomp] at horig
    obtain ⟨h1, h2, h12⟩ := List.pairwise_append.mp horig
    obtain ⟨h2head, h2tail⟩ := List.pairwise_cons.mp h2
    refine List.pairwise_append.mpr ⟨h1, List.pairwise_cons.mpr ⟨?_, h2tail⟩, ?_⟩
    · intro y hy
      rintro ⟨c1, c2⟩
      have hyid : y.id ≠ id := by
        intro hyid
        exact hbid_notin_l₂ (by
          rw [hbookid, ← hyid]
          exact List.mem_map_of_mem _ hy)
      have hymem : y ∈ st.books := by
        rw [hdecomp]
        exact List.mem_append_right _ (List.mem_cons_of_mem _ hy)
      exact key y hymem hyid ⟨c1.symm, c2.symm⟩
    · intro x hx y hy
      rcases List.mem_cons.mp hy with rfl | hy
      · rintro ⟨c1, c2⟩
        have hxid : x.id ≠ id := by
          intro hxid
          exact hbid_notin_l₁ (by
            rw [hbookid, ← hxid]
            exact List.mem_map_of_mem _ hx)
        have hxmem : x ∈ st.books := by
          rw [hdecomp]
          exact List.mem_append_left _ hx
        exact key x hxmem hxid ⟨by simpa using c1, by simpa using c2⟩
      · exact h12 x hx y (List.mem_cons_of_mem _ hy)
  · intro b hb
    rcases mem_updateFirst hb with hb | ⟨y, hy, hpy, rfl⟩
    · exact h.titlesTrimmed b hb
    · simpa using jsTrim_idem body.title.asString
  · intro b hb
    rcases mem_updateFirst hb with hb | ⟨y, hy, hpy, rfl⟩
    · exact h.titlesNonempty b hb
    · simpa [hts] using hsne
  · intro b hb
    rcases mem_updateFirst hb with hb | ⟨y, hy, hpy, rfl⟩
    · exact h.bookIdsPos b hb
    · simpa using h.bookIdsPos y hy

theorem goodState_deleteBook (st : LibraryState) (id : Int)
    (h : GoodState st) : GoodState (deleteBook st id).2 := by
  rcases hf : st.books.find? (fun b => b.id == id) with _ | b
  case none => simpa only [deleteBook, hf] using h
  simp only [deleteBook, hf]
  refine ⟨?_, h.authorIdsNodup, ?_, ?_, ?_, ?_, h.authorIdsPos, ?_⟩
  · intro b' hb'
    exact h.refInt b' ((removeFirst_sublist _ _).subset hb')
  · exact h.bookIdsNodup.sublist ((removeFirst_sublist _ _).map _)
  · exact h.pairsUnique.sublist (removeFirst_sublist _ _)
  · intro b' hb'
    exact h.titlesTrimmed b' ((removeFirst_sublist _ _).subset hb')
  · intro b' hb'
    exact h.titlesNonempty b' ((removeFirst_sublist _ _).subset hb')
  · intro b' hb'
    exact h.bookIdsPos b' ((removeFirst_sublist _ _).subset hb')

theorem goodState_applyRequest (st : LibraryState) (r : Request) (h : GoodState st) :
    GoodState (applyRequest st r) := by
  cases r with
  | authorCreate body => exact goodState_postAuthor st body h
  | authorUpdate id body => exact goodState_putAuthor st id body h
  | authorDelete id => exact goodState_deleteAuthor st id h
  | bookCreate body => exact goodState_postBook st body h
  | bookUpdate id body => exact goodState_putBook st id body h
  | bookDelete id => exact goodState_deleteBook st id h

/-- Every reachable state satisfies the full inductive invariant. -/
theorem reachable_goodState {st : LibraryState} (h : Reachable st) : GoodState st := by
  induction h with
  | init => exact goodState_initial
  | step r hst ih => exact goodState_applyRequest _ r ih

theorem foldl_max_init : ∀ (l : List Int) (a b : Int),
    l.foldl max (max a b) = max a (l.foldl max b)
  | [], a, b => rfl
  | x :: xs, a, b => by
    rw [List.foldl_cons, List.foldl_cons, max_assoc, foldl_max_init xs a (max b x)]

theorem idWitnessReachable : Reachable idWitnessState :=
  Reachable.step _ (Reachable.step _ (Reachable.step _ Reachable.init))

/-! ## The claims -/

/-- C1: in every state reachable by any sequence of author/book creates,
updates and deletes, every Book's `authorId` references an existing Author;
book create and update are blocked by validation (400, state unchanged)
whenever `authorId` does not resolve; and a successful author deletion
leaves no book of that author behind — so no step boundary ever exhibits a
Book referencing a missing Author. -/
theorem referential_integrity :
    (∀ st : LibraryState, Reachable st → RefIntegrity st)
    ∧ (∀ (st : LibraryState) (body : CreateBookBody),
        ¬AuthorResolves st.authors body →
        (postBook st body).1.isBadRequest = true ∧ (postBook st body).2 = st)
    ∧ (∀ (st : LibraryState) (id : Int) (body : CreateBookBody),
        ¬AuthorResolves st.authors body →
        (putBook st id body).1.isBadRequest = true ∧ (putBook st id body).2 = st)
    ∧ (∀ (st : LibraryState) (id : Int) (a : Author),
        st.authors.find? (fun x => x.id == id) = some a →
        (deleteAuthor st id).2.books.filter (fun b => b.authorId == id) = []) := by
  refine ⟨fun st h => (reachable_goodState h).refInt, ?_, ?_, ?_⟩
  · intro st body hres
    rcases hv : validateBookPayload st.authors body with _ | e
    · exact absurd ((validateBookPayload_none_iff _ _).mp hv).2.2.1 hres
    · simp [postBook, hv, Response.isBadRequest]
  · intro st id body hres
    rcases hv : validateBookPayload st.authors body with _ | e
    · exact absurd ((validateBookPayload_none_iff _ _).mp hv).2.2.1 hres
    · simp [putBook, hv, Response.isBadRequest]
  · intro st id a hf
    simp only [deleteAuthor, hf, List.filter_filter]
    apply List.filter_eq_nil_iff.mpr
    intro b hb
    simp

/-- C1 witness: the invariant holds at a concrete reachable state with one
author and one book, and a concrete unresolvable create is rejected with the
state unchanged. -/
theorem referential_integrity_witness :
    RefIntegrity (applyRequest (applyRequest initialState
      (.authorCreate ⟨.str "Ada", none⟩)) (.bookCreate ⟨.str "X", .undefined, .num 1⟩))
    ∧ ((postBook initialState ⟨.str "X", .undefined, .num 7⟩).1.isBadRequest = true
        ∧ (postBook initialState ⟨.str "X", .undefined, .num 7⟩).2 = initialState) :=
  ⟨referential_integrity.1 _ (Reachable.step _ (Reachable.step _ Reachable.init)),
   referential_integrity.2.1 initialState ⟨.str "X", .undefined, .num 7⟩ (by
    rintro ⟨n, hn, a, ha, haid⟩
    simp [initialState] at ha)⟩

/-- C3: deleting an existing author returns 200 with the removed author,
removes exactly the books whose `authorId` equals the id (all other books
unchanged, in order) and removes the author; deleting a missing id is a 404
leaving the state untouched; and after a successful delete, listing the
deleted author's books is a 404, not an empty list. -/
theorem cascade_delete :
    (∀ (st : LibraryState) (id : Int) (a : Author), Reachable st →
        st.authors.find? (fun x => x.id == id) = some a →
        (deleteAuthor st id).1 = .ok 200 a
        ∧ (deleteAuthor st id).2.books = st.books.filter (fun b => !(b.authorId == id))
        ∧ (deleteAuthor st id).2.authors = st.authors.filter (fun x => !(x.id == id))
        ∧ getAuthorBooks (deleteAuthor st id).2 id = .err 404 "Author not found.")
    ∧ (∀ (st : LibraryState) (id : Int),
        st.authors.find? (fun x => x.id == id) = none →
        deleteAuthor st id = (.err 404 "Author not found.", st)) := by
  constructor
  · intro st id a hreach hf
    have hnodup := (reachable_goodState hreach).authorIdsNodup
    have hauthors : (deleteAuthor st id).2.authors
        = st.authors.filter (fun x => !(x.id == id)) := by
      simp only [deleteAuthor, hf]
      exact removeFirst_eq_filter hnodup
    refine ⟨by simp [deleteAuthor, hf], by simp [deleteAuthor, hf], hauthors, ?_⟩
    rw [getAuthorBooks, hauthors]
    rw [List.find?_eq_none.mpr ?_]
    intro x hx
    have := (List.mem_filter.mp hx).2
    simpa using this
  · intro st id hf
    simp [deleteAuthor, hf]

/-- C3 witness: deleting author 1 from a concrete two-author, three-book
state removes exactly author 1 and their two books, and the subsequent
books-by-author listing is a 404. -/
theorem cascade_delete_witness :
    (deleteAuthor cascadeWitnessState 1).1 = .ok 200 ⟨1, "Ada", none⟩
    ∧ (deleteAuthor cascadeWitnessState 1).2.books
        = cascadeWitnessState.books.filter (fun b => !(b.authorId == 1))
    ∧ (deleteAuthor cascadeWitnessState 1).2.authors
        = cascadeWitnessState.authors.filter (fun x => !(x.id == 1))
    ∧ getAuthorBooks (deleteAuthor cascadeWitnessState 1).2 1
        = .err 404 "Author not found." :=
  cascade_delete.1 cascadeWitnessState 1 ⟨1, "Ada", none⟩
    (Reachable.step (.bookCreate ⟨.str "Z", .num 2001, .num 2⟩)
      (Reachable.step (.bookCreate ⟨.str "Y", .undefined, .num 1⟩)
        (Reachable.step (.bookCreate ⟨.str "X", .num 2000, .num 1⟩)
          (Reachable.step (.authorCreate ⟨.str "Bob", none⟩)
            (Reachable.step (.authorCreate ⟨.str "Ada", none⟩) Reachable.init)))))
    (by decide)

/-- C7: creating an author from a valid payload fails with 409 and leaves
the table unchanged when some existing author's name matches the trimmed
new name case-insensitively; otherwise it assigns `getNextAuthorId`, stores
the trimmed name and returns the new author. -/
theorem author_create :
    ∀ (st : LibraryState) (body : CreateAuthorBody) (s : String),
      body.name = .str s → jsTrim s ≠ "" →
      ((∃ a ∈ st.authors, jsToLower a.name = jsToLower (jsTrim s)) →
        (postAuthor st body).1 = .err 409 "Author already exists."
        ∧ (postAuthor st body).2 = st)
      ∧ (¬(∃ a ∈ st.authors, jsToLower a.name = jsToLower (jsTrim s)) →
        postAuthor st body = (.ok 201 ⟨getNextAuthorId st.authors, jsTrim s, body.bio⟩,
          ⟨st.authors ++ [⟨getNextAuthorId st.authors, jsTrim s, body.bio⟩], st.books⟩)) := by
  intro st body s hname hs
  have hv : validateAuthorPayload body = none :=
    (validateAuthorPayload_none_iff body).mpr ⟨s, hname, hs⟩
  have hasx : body.name.asString = s := by rw [hname]; rfl
  constructor
  · rintro ⟨a, ha, heq⟩
    rcases hf : st.authors.find?
        (fun x => jsToLower x.name == jsToLower (jsTrim body.name.asString)) with _ | d
    · exact absurd (List.find?_eq_none.mp hf a ha) (by simp [hasx, heq])
    · constructor <;> simp [postAuthor, hv, hf]
  · intro hnone
    rcases hf : st.authors.find?
        (fun x => jsToLower x.name == jsToLower (jsTrim body.name.asString)) with _ | d
    · rw [hasx] at hf
      simp [postAuthor, hv, hasx, hf]
    · have hd := List.find?_some hf
      have hdm := List.mem_of_find?_eq_some hf
      exact absurd ⟨d, hdm, by simpa [hasx] using hd⟩ hnone

/-- C7 witness: a concrete duplicate create is rejected without appending,
and a concrete fresh create stores id 1 with the trimmed name. -/
theorem author_create_witness :
    ((postAuthor ⟨[⟨1, "Ada", none⟩], []⟩ ⟨.str " ADA ", none⟩).1
        = .err 409 "Author already exists."
      ∧ (postAuthor ⟨[⟨1, "Ada", none⟩], []⟩ ⟨.str " ADA ", none⟩).2
        = ⟨[⟨1, "Ada", none⟩], []⟩)
    ∧ postAuthor initialState ⟨.str " Ada ", none⟩
        = (.ok 201 ⟨1, "Ada", none⟩, ⟨[⟨1, "Ada", none⟩], []⟩) := by
  constructor
  · exact (author_create ⟨[⟨1, "Ada", none⟩], []⟩ ⟨.str " ADA ", none⟩ " ADA "
      rfl (by decide)).1 (by decide)
  · have h := (author_create initialState ⟨.str " Ada ", none⟩ " Ada "
      rfl (by decide)).2 (by decide)
    rw [h]
    decide

/-- C8: the next assigned id is the maximum existing id plus one (1 on an
empty table) for both tables — for the books table in every reachable state
— and consequently author and book ids are unique within their tables in
every reachable state. -/
theorem id_assignment_unique :
    getNextAuthorId [] = 1
    ∧ getNextBookId [] = 1
    ∧ (∀ (authors : List Author) (m : Int),
        (authors.map (·.id)).max? = some m → getNextAuthorId authors = m + 1)
    ∧ (∀ st : LibraryState, Reachable st → ∀ m : Int,
        (st.books.map (·.id)).max? = some m → getNextBookId st.books = m + 1)
    ∧ (∀ st : LibraryState, Reachable st →
        (st.authors.map (·.id)).Nodup ∧ (st.books.map (·.id)).Nodup) := by
  refine ⟨rfl, rfl, ?_, ?_, fun st h =>
    ⟨(reachable_goodState h).authorIdsNodup, (reachable_goodState h).bookIdsNodup⟩⟩
  · intro authors m hm
    cases hmap : authors.map (·.id) with
    | nil => rw [hmap] at hm; cases hm
    | cons x xs =>
      rw [hmap, List.max?_cons'] at hm
      injection hm with hm
      have hne : authors.length ≠ 0 := by
        intro hlen
        rw [List.length_eq_zero] at hlen
        rw [hlen] at hmap
        cases hmap
      rw [getNextAuthorId, if_neg hne, hmap, maxOfList, hm]
  · intro st hreach m hm
    have hpos := (reachable_goodState hreach).bookIdsPos
    cases hmap : st.books.map (·.id) with
    | nil => rw [hmap] at hm; cases hm
    | cons x xs =>
      rw [hmap, List.max?_cons'] at hm
      injection hm with hm
      have hmmem : m ∈ st.books.map (·.id) := by
        rw [hmap]
        exact List.max?_mem max_choice (by rw [List.max?_cons', hm])
      obtain ⟨b, hb, hbid⟩ := List.mem_map.mp hmmem
      have hmpos : 1 ≤ m := hbid ▸ hpos b hb
      rw [getNextBookId_eq_foldl, hmap, List.foldl_cons]
      have : xs.foldl max (max 0 x) = max 0 (xs.foldl max x) := foldl_max_init xs 0 x
      rw [this, hm]
      omega

/-- C8 witness: the max-plus-one law applied at a concrete reachable state
holding two books with ids 1 and 2. -/
theorem id_assignment_unique_witness :
    getNextBookId idWitnessState.books = 2 + 1
    ∧ ((idWitnessState.authors.map (·.id)).Nodup
        ∧ (idWitnessState.books.map (·.id)).Nodup) :=
  ⟨id_assignment_unique.2.2.2.1 idWitnessState idWitnessReachable 2 (by decide),
   id_assignment_unique.2.2.2.2 idWitnessState idWitnessReachable⟩

/-- C10: updates overwrite every mutable field from the payload
unconditionally — a successful author update stores the payload's `bio`
(clearing it when omitted) and the trimmed name, a successful book update
stores the payload's `year` (cleared when omitted), `authorId` and trimmed
title — and no update (successful or not) ever changes any record's id. -/
theorem update_overwrites :
    (∀ (st : LibraryState) (id : Int) (body : CreateAuthorBody),
        (putAuthor st id body).2.authors.map (·.id) = st.authors.map (·.id)
        ∧ (putAuthor st id body).2.books = st.books)
    ∧ (∀ (st : LibraryState) (id : Int) (body : CreateBookBody),
        (putBook st id body).2.books.map (·.id) = st.books.map (·.id)
        ∧ (putBook st id body).2.authors = st.authors)
    ∧ (∀ (st : LibraryState) (id : Int) (body : CreateAuthorBody) (a : Author),
        (putAuthor st id body).1 = .ok 200 a →
        a.bio = body.bio ∧ a.name = jsTrim body.name.asString ∧ a.id = id
        ∧ a ∈ (putAuthor st id body).2.authors)
    ∧ (∀ (st : LibraryState) (id : Int) (body : CreateBookBody) (b : Book),
        (putBook st id body).1 = .ok 200 b →
        b.year = body.year.asOptNum ∧ b.authorId = body.authorId.asNum
        ∧ b.title = jsTrim body.title.asString ∧ b.id = id
        ∧ b ∈ (putBook st id body).2.books) := by
  refine ⟨?_, ?_, ?_, ?_⟩
  · intro st id body
    rcases hv : validateAuthorPayload body with _ | e
    case some => simp [putAuthor, hv]
    rcases hfind : st.authors.find? (fun a => a.id == id) with _ | author
    case none => simp [putAuthor, hv, hfind]
    rcases hdup : st.authors.find?
        (fun a => jsToLower a.name == jsToLower (jsTrim body.name.asString)
          && !(a.id == id)) with _ | d
    case some => simp [putAuthor, hv, hfind, hdup]
    simp only [putAuthor, hv, hfind, hdup]
    exact ⟨updateFirst_map (fun a => a.id == id)
      (fun a => { a with name := jsTrim body.name.asString, bio := body.bio })
      (·.id) (fun x => rfl) st.authors, by trivial⟩
  · intro st id body
    rcases hv : validateBookPayload st.authors body with _ | e
    case some => simp [putBook, hv]
    rcases hfind : st.books.find? (fun b => b.id == id) with _ | book
    case none => simp [putBook, hv, hfind]
    rcases hdup : st.books.find?
        (fun b => jsToLower b.title == jsToLower (jsTrim body.title.asString)
          && b.authorId == body.authorId.asNum && !(b.id == id)) with _ | d
    case some => simp [putBook, hv, hfind, hdup]
    simp only [putBook, hv, hfind, hdup]
    refine ⟨updateFirst_map (fun b => b.id == id)
      (fun b => { b with title := jsTrim body.title.asString, year := body.year.asOptNum, authorId := body.authorId.asNum })
      (·.id) (fun x => rfl) st.books, by trivial⟩
  · intro st id body a hok
    rcases hv : validateAuthorPayload body with _ | e
    case some => simp [putAuthor, hv] at hok
    rcases hfind : st.authors.find? (fun x => x.id == id) with _ | author
    case none => simp [putAuthor, hv, hfind] at hok
    rcases hdup : st.authors.find?
        (fun x => jsToLower x.name == jsToLower (jsTrim body.name.asString)
          && !(x.id == id)) with _ | d
    case some => simp [putAuthor, hv, hfind, hdup] at hok
    have hid : author.id = id := by simpa using List.find?_some hfind
    simp only [putAuthor, hv, hfind, hdup, Response.ok.injEq] at hok
    obtain ⟨-, hok⟩ := hok
    subst hok
    obtain ⟨l₁, l₂, hdecomp, hl₁, hpa⟩ := find?_decomp hfind
    refine ⟨rfl, rfl, hid, ?_⟩
    simp only [putAuthor, hv, hfind, hdup]
    rw [hdecomp, updateFirst_append _ _ l₁ author l₂ hl₁ hpa]
    exact List.mem_append_right _ (List.mem_cons_self _ _)
  · intro st id body b hok
    rcases hv : validateBookPayload st.authors body with _ | e
    case some => simp [putBook, hv] at hok
    rcases hfind : st.books.find? (fun x => x.id == id) with _ | book
    case none => simp [putBook, hv, hfind] at hok
    rcases hdup : st.books.find?
        (fun x => jsToLower x.title == jsToLower (jsTrim body.title.asString)
          && x.authorId == body.authorId.asNum && !(x.id == id)) with _ | d
    case some => simp [putBook, hv, hfind, hdup] at hok
    have hid : book.id = id := by simpa using List.find?_some hfind
    simp only [putBook, hv, hfind, hdup, Response.ok.injEq] at hok
    obtain ⟨-, hok⟩ := hok
    subst hok
    obtain ⟨l₁, l₂, hdecomp, hl₁, hpb⟩ := find?_decomp hfind
    refine ⟨rfl, rfl, rfl, hid, ?_⟩
    simp only [putBook, hv, hfind, hdup]
    rw [hdecomp, updateFirst_append _ _ l₁ book l₂ hl₁ hpb]
    exact List.mem_append_right _ (List.mem_cons_self _ _)

/-- C2: in every reachable state the (lowercased title, authorId) pair is
unique among books; create fails with 409 Conflict (state unchanged) when an
existing book matches on (case-insensitive trimmed title, authorId); update
of an existing record fails with 409 Conflict (state unchanged) when another
book with a different id matches; and updating a book to its own current
(title, authorId) pair never yields a Conflict. -/
theorem book_uniqueness :
    (∀ st : LibraryState, Reachable st → BookPairsUnique st)
    ∧ (∀ (st : LibraryState) (body : CreateBookBody),
        validateBookPayload st.authors body = none →
        (∃ b ∈ st.books, jsToLower b.title = jsToLower (jsTrim body.title.asString)
          ∧ b.authorId = body.authorId.asNum) →
        (postBook st body).1 = .err 409 "Duplicate book for this author."
        ∧ (postBook st body).2 = st)
    ∧ (∀ (st : LibraryState) (id : Int) (body : CreateBookBody),
        validateBookPayload st.authors body = none →
        (∃ b₀ ∈ st.books, b₀.id = id) →
        (∃ b ∈ st.books, jsToLower b.title = jsToLower (jsTrim body.title.asString)
          ∧ b.authorId = body.authorId.asNum ∧ b.id ≠ id) →
        (putBook st id body).1 = .err 409 "Another book with same title & author exists."
        ∧ (putBook st id body).2 = st)
    ∧ (∀ (st : LibraryState) (k : Book) (y : JsVal), Reachable st → k ∈ st.books →
        (y = .undefined ∨ ∃ m, y = .num m) →
        (putBook st k.id ⟨.str k.title, y, .num k.authorId⟩).1.isConflict = false) := by
  refine ⟨fun st h => (reachable_goodState h).pairsUnique, ?_, ?_, ?_⟩
  · rintro st body hv ⟨b, hb, h1, h2⟩
    rcases hf : st.books.find?
        (fun x => jsToLower x.title == jsToLower (jsTrim body.title.asString)
          && x.authorId == body.authorId.asNum) with _ | d
    · exact absurd (List.find?_eq_none.mp hf b hb) (by simp [h1, h2])
    · constructor <;> simp [postBook, hv, hf]
  · rintro st id body hv ⟨b₀, hb₀, hb₀id⟩ ⟨b, hb, h1, h2, h3⟩
    rcases hfind : st.books.find? (fun x => x.id == id) with _ | book
    · exact absurd (List.find?_eq_none.mp hfind b₀ hb₀) (by simp [hb₀id])
    · rcases hdup : st.books.find?
          (fun x => jsToLower x.title == jsToLower (jsTrim body.title.asString)
            && x.authorId == body.authorId.asNum && !(x.id == id)) with _ | d
      · exact absurd (List.find?_eq_none.mp hdup b hb) (by simp [h1, h2, h3])
      · constructor <;> simp [putBook, hv, hfind, hdup]
  · intro st k y hreach hk hy
    have good := reachable_goodState hreach
    have htrim : jsTrim k.title = k.title := good.titlesTrimmed k hk
    have hne : k.title ≠ "" := good.titlesNonempty k hk
    have hv : validateBookPayload st.authors ⟨.str k.title, y, .num k.authorId⟩ = none := by
      apply (validateBookPayload_none_iff _ _).mpr
      refine ⟨⟨k.title, rfl, by rw [htrim]; exact hne⟩, ⟨k.authorId, rfl⟩,
        ⟨k.authorId, rfl, ?_⟩, hy⟩
      obtain ⟨a, ha, haid⟩ := good.refInt k hk
      exact ⟨a, ha, haid⟩
    rcases hfind : st.books.find? (fun b => b.id == k.id) with _ | book
    · exact absurd (List.find?_eq_none.mp hfind k hk) (by simp)
    · have hsymm : Symmetric (fun b₁ b₂ : Book =>
          ¬(jsToLower b₁.title = jsToLower b₂.title ∧ b₁.authorId = b₂.authorId)) := by
        intro x z h hc
        exact h ⟨hc.1.symm, hc.2.symm⟩
      have hdup : st.books.find?
          (fun b => jsToLower b.title == jsToLower (jsTrim k.title)
            && b.authorId == k.authorId && !(b.id == k.id)) = none := by
        apply List.find?_eq_none.mpr
        intro x hx hcontra
        simp only [Bool.and_eq_true, beq_iff_eq, Bool.not_eq_true',
          beq_eq_false_iff_ne] at hcontra
        obtain ⟨⟨c1, c2⟩, c3⟩ := hcontra
        have hxk : x ≠ k := fun he => c3 (by rw [he])
        have hR := List.Pairwise.forall hsymm good.pairsUnique hx hk hxk
        exact hR ⟨by rw [c1, htrim], c2⟩
      simp [putBook, hv, hfind, JsVal.asString, JsVal.asNum, hdup, Response.isConflict]

/-- C2 witness: at a concrete reachable one-book state, the pair invariant
holds, a case-insensitive duplicate create is rejected with 409 leaving the
state unchanged, and the book's self-update does not conflict. -/
theorem book_uniqueness_witness :
    BookPairsUnique uniqWitnessState
    ∧ ((postBook uniqWitnessState ⟨.str " x ", .undefined, .num 1⟩).1
        = .err 409 "Duplicate book for this author."
      ∧ (postBook uniqWitnessState ⟨.str " x ", .undefined, .num 1⟩).2 = uniqWitnessState)
    ∧ (putBook uniqWitnessState 1 ⟨.str "X", .num 2000, .num 1⟩).1.isConflict = false := by
  have hreach : Reachable uniqWitnessState :=
    Reachable.step _ (Reachable.step _ Reachable.init)
  refine ⟨book_uniqueness.1 uniqWitnessState hreach, ?_, ?_⟩
  · exact book_uniqueness.2.1 uniqWitnessState ⟨.str " x ", .undefined, .num 1⟩
      (by decide) ⟨⟨1, "X", some 2000, 1⟩, by decide, by decide, by decide⟩
  · exact book_uniqueness.2.2.2 uniqWitnessState ⟨1, "X", some 2000, 1⟩ (.num 2000)
      hreach (by decide) (Or.inr ⟨2000, rfl⟩)

/-- C6: the book-payload checks run in exactly the order title → authorId
numeric → authorId resolves → year numeric, the first failing check
determining the reported failure; and a payload whose numeric `authorId`
does not resolve always produces a 400 validation error with no repository
mutation, on create and on update. -/
theorem book_validation_order :
    (∀ (authors : List Author) (body : CreateBookBody),
        (validateBookPayload authors body = some .titleRequired ↔ ¬TitleOk body)
        ∧ (validateBookPayload authors body = some .authorIdRequired ↔
            TitleOk body ∧ ¬AuthorIdNumeric body)
        ∧ (validateBookPayload authors body = some .authorIdNotFound ↔
            TitleOk body ∧ AuthorIdNumeric body ∧ ¬AuthorResolves authors body)
        ∧ (validateBookPayload authors body = some .yearNotNumber ↔
            TitleOk body ∧ AuthorIdNumeric body ∧ AuthorResolves authors body ∧ ¬YearOk body)
        ∧ (validateBookPayload authors body = none ↔
            TitleOk body ∧ AuthorIdNumeric body ∧ AuthorResolves authors body ∧ YearOk body))
    ∧ (∀ (st : LibraryState) (body : CreateBookBody) (n : Int),
        body.authorId = .num n → (∀ a ∈ st.authors, a.id ≠ n) →
        (postBook st body).1.isBadRequest = true ∧ (postBook st body).2 = st
        ∧ ∀ id, (putBook st id body).1.isBadRequest = true ∧ (putBook st id body).2 = st) := by
  constructor
  · intro as body
    by_cases h1 : (!body.title.truthy || !body.title.isString
        || jsTrim body.title.asString == "") = true
    · have hT : ¬TitleOk body := fun hT => by
        rw [(titleCond_false_iff body).mpr hT] at h1
        cases h1
      refine ⟨?_, ?_, ?_, ?_, ?_⟩ <;> simp [validateBookPayload, h1, hT]
    · have h1f : (!body.title.truthy || !body.title.isString
          || jsTrim body.title.asString == "") = false := by simpa using h1
      have hT : TitleOk body := (titleCond_false_iff body).mp h1f
      by_cases h2 : (body.authorId == JsVal.undefined || !body.authorId.isNumber) = true
      · have hN : ¬AuthorIdNumeric body := fun hN => by
          rw [(authorIdCond_false_iff body).mpr hN] at h2
          cases h2
        refine ⟨?_, ?_, ?_, ?_, ?_⟩ <;> simp [validateBookPayload, h1f, h2, hT, hN]
      · have h2f : (body.authorId == JsVal.undefined || !body.authorId.isNumber) = false := by
          simpa using h2
        have hN : AuthorIdNumeric body := (authorIdCond_false_iff body).mp h2f
        by_cases h3 : (!(as.any fun a => a.id == body.authorId.asNum)) = true
        · have hR : ¬AuthorResolves as body := fun hR => by
            rw [(authorExistsCond_false_iff as body hN).mpr hR] at h3
            cases h3
          refine ⟨?_, ?_, ?_, ?_, ?_⟩ <;> simp [validateBookPayload, h1f, h2f, h3, hT, hN, hR]
        · have h3f : (!(as.any fun a => a.id == body.authorId.asNum)) = false := by
            simpa using h3
          have hR : AuthorResolves as body := (authorExistsCond_false_iff as body hN).mp h3f
          by_cases h4 : (!(body.year == JsVal.undefined) && !body.year.isNumber) = true
          · have hY : ¬YearOk body := fun hY => by
              rw [(yearCond_false_iff body).mpr hY] at h4
              cases h4
            refine ⟨?_, ?_, ?_, ?_, ?_⟩ <;>
              simp [validateBookPayload, h1f, h2f, h3f, h4, hT, hN, hR, hY]
          · have h4f : (!(body.year == JsVal.undefined) && !body.year.isNumber) = false := by
              simpa using h4
            have hY : YearOk body := (yearCond_false_iff body).mp h4f
            refine ⟨?_, ?_, ?_, ?_, ?_⟩ <;>
              simp [validateBookPayload, h1f, h2f, h3f, h4f, hT, hN, hR, hY]
  · intro st body n hn hmiss
    have hres : ¬AuthorResolves st.authors body := by
      rintro ⟨n', hn', a, ha, haid⟩
      rw [hn] at hn'
      injection hn' with hn'
      exact hmiss a ha (hn' ▸ haid)
    have hblock : ∀ e, validateBookPayload st.authors body = some e →
        (postBook st body).1.isBadRequest = true ∧ (postBook st body).2 = st
        ∧ ∀ id, (putBook st id body).1.isBadRequest = true ∧ (putBook st id body).2 = st := by
      intro e hv
      refine ⟨by simp [postBook, hv, Response.isBadRequest], by simp [postBook, hv],
        fun id => ⟨by simp [putBook, hv, Response.isBadRequest], by simp [putBook, hv]⟩⟩
    rcases hv : validateBookPayload st.authors body with _ | e
    · exact absurd ((validateBookPayload_none_iff _ _).mp hv).2.2.1 hres
    · exact hblock e hv

/-- C6 witness: at a concrete state, a payload whose authorId does not
resolve is reported as `authorIdNotFound` (the earlier checks passing), and
the create and update endpoints reject it with 400, unchanged state. -/
theorem book_validation_order_witness :
    (validateBookPayload [⟨1, "Ada", none⟩] ⟨.str "T", .num 1999, .num 9⟩
        = some .authorIdNotFound
      ↔ TitleOk ⟨.str "T", .num 1999, .num 9⟩
        ∧ AuthorIdNumeric ⟨.str "T", .num 1999, .num 9⟩
        ∧ ¬AuthorResolves [⟨1, "Ada", none⟩] ⟨.str "T", .num 1999, .num 9⟩)
    ∧ ((postBook ⟨[⟨1, "Ada", none⟩], []⟩ ⟨.str "T", .num 1999, .num 9⟩).1.isBadRequest = true
      ∧ (postBook ⟨[⟨1, "Ada", none⟩], []⟩ ⟨.str "T", .num 1999, .num 9⟩).2
          = ⟨[⟨1, "Ada", none⟩], []⟩
      ∧ ∀ id, (putBook ⟨[⟨1, "Ada", none⟩], []⟩ id ⟨.str "T", .num 1999, .num 9⟩).1.isBadRequest = true
        ∧ (putBook ⟨[⟨1, "Ada", none⟩], []⟩ id ⟨.str "T", .num 1999, .num 9⟩).2
            = ⟨[⟨1, "Ada", none⟩], []⟩) :=
  ⟨(book_validation_order.1 [⟨1, "Ada", none⟩] ⟨.str "T", .num 1999, .num 9⟩).2.2.1,
   book_validation_order.2 ⟨[⟨1, "Ada", none⟩], []⟩ ⟨.str "T", .num 1999, .num 9⟩ 9
     rfl (by decide)⟩

theorem charsInclude_nil (l : List Char) : charsInclude [] l = true := by
  cases l <;> simp [charsInclude, List.isPrefixOf]

/-- C5: when `limit` is present both parameters are floored at 1 (`page`
defaulting to 1) and the 1-indexed window of length `limit` starting at
zero-based index `(page-1)*limit` is returned; when `limit` is absent no
pagination happens regardless of `page`; `limit=2, page=2` over 5 items
gives zero-based indices 2–3; and an out-of-range page gives `[]`, not an
error. -/
theorem pagination_stage :
    (∀ (l : List Book) (pg : Option Int), paginate none pg l = l)
    ∧ (∀ (lim pg : Int) (l : List Book), 1 ≤ lim → 1 ≤ pg →
        paginate (some lim) (some pg) l = (l.drop ((pg - 1) * lim).toNat).take lim.toNat)
    ∧ (∀ (lim pg : Int) (l : List Book),
        paginate (some lim) (some pg) l = paginate (some (max 1 lim)) (some (max 1 pg)) l)
    ∧ (∀ l : List Book, l.length = 5 →
        paginate (some 2) (some 2) l = (l.drop 2).take 2)
    ∧ (∀ l : List Book, l.length = 5 → paginate (some 2) (some 10) l = [])
    ∧ (∀ (lim pg : Int) (l : List Book),
        l.length ≤ (((max 1 pg) - 1) * max 1 lim).toNat →
        paginate (some lim) (some pg) l = []) := by
  refine ⟨fun l pg => ?_, fun lim pg l hlim hpg => ?_, fun lim pg l => ?_,
    fun l hl => ?_, fun l hl => ?_, fun lim pg l hout => ?_⟩
  · cases pg <;> rfl
  · have h1 : max 1 lim = lim := max_eq_right hlim
    have h2 : max 1 pg = pg := max_eq_right hpg
    simp only [paginate, h1, h2]
  · have hid : ∀ x : Int, max 1 (max 1 x) = max 1 x := fun x => by
      rw [← max_assoc, max_self]
    simp only [paginate, hid]
  · simp [paginate]
  · have heq : paginate (some 2) (some 10) l = (l.drop 18).take 2 := by
      have h1 : ((max 1 (10 : Int) - 1) * max 1 2).toNat = 18 := by decide
      have h2 : (max 1 (2 : Int)).toNat = 2 := by decide
      simp only [paginate, h1, h2]
    rw [heq, List.drop_eq_nil_iff.mpr (by omega), List.take_nil]
  · have : l.drop (((max 1 pg) - 1) * max 1 lim).toNat = [] := by
      rw [List.drop_eq_nil_iff]
      exact hout
    simp only [paginate, this, List.take_nil]

/-- C5 witness: the window and out-of-range behaviors at the concrete
five-book list. -/
theorem pagination_stage_witness :
    paginate none (some 10) pageWitnessBooks = pageWitnessBooks
    ∧ paginate (some 2) (some 2) pageWitnessBooks = (pageWitnessBooks.drop 2).take 2
    ∧ paginate (some 2) (some 10) pageWitnessBooks = [] :=
  ⟨pagination_stage.1 pageWitnessBooks (some 10),
   pagination_stage.2.2.2.1 pageWitnessBooks (by decide),
   pagination_stage.2.2.2.2.1 pageWitnessBooks (by decide)⟩

/-- C9: with a title filter and a year filter and no other parameter, the
query returns exactly the books matching both predicates — the intersection
of the title-match set and the year-match set — in original insertion
order. -/
theorem filter_composition :
    ∀ (st : LibraryState) (t : String) (y : Int),
      listBooks st ⟨some t, none, some y, none, none, none⟩
          = st.books.filter (fun b => titleMatches t b && yearMatches y b)
      ∧ listBooks st ⟨some t, none, some y, none, none, none⟩
          = (st.books.filter (titleMatches t)).filter (yearMatches y)
      ∧ ∀ b : Book, b ∈ listBooks st ⟨some t, none, some y, none, none, none⟩
          ↔ b ∈ st.books.filter (titleMatches t) ∧ b ∈ st.books.filter (yearMatches y) := by
  intro st t y
  have hpipeline : listBooks st ⟨some t, none, some y, none, none, none⟩
      = (titleFilter (some t) st.books).filter (yearMatches y) := by
    simp [listBooks, authorFilter, yearFilter, paginate]
  have htitle : (titleFilter (some t) st.books).filter (yearMatches y)
      = (st.books.filter (titleMatches t)).filter (yearMatches y) := by
    by_cases ht : t = ""
    · subst ht
      have hall : st.books.filter (titleMatches "") = st.books :=
        List.filter_eq_self.mpr (fun b hb => charsInclude_nil _)
      simp [titleFilter, hall]
    · simp [titleFilter, ht]
  have hsplit : (st.books.filter (titleMatches t)).filter (yearMatches y)
      = st.books.filter (fun b => titleMatches t b && yearMatches y b) := by
    rw [List.filter_filter]
    apply List.filter_congr
    intro b hb
    exact Bool.and_comm _ _
  refine ⟨hpipeline.trans (htitle.trans hsplit), hpipeline.trans htitle, ?_⟩
  intro b
  rw [hpipeline, htitle]
  constructor
  · intro hb
    have h1 := List.mem_of_mem_filter hb
    have h2 := List.of_mem_filter hb
    have h3 := List.of_mem_filter h1
    have h4 := List.mem_of_mem_filter h1
    exact ⟨h1, List.mem_filter.mpr ⟨h4, h2⟩⟩
  · rintro ⟨h1, h2⟩
    exact List.mem_filter.mpr ⟨h1, List.of_mem_filter h2⟩

/-! ### Lemmas about the sort comparator -/

theorem getField_title (b : Book) : b.getField "title" = .vstr b.title := by
  simp [Book.getField]

theorem getField_year (b : Book) :
    b.getField "year" = (match b.year with | some y => .vint y | none => .vundefined) := by
  simp [Book.getField]

theorem getField_id (b : Book) : b.getField "id" = .vint b.id := by
  simp [Book.getField]

theorem getField_authorId (b : Book) : b.getField "authorId" = .vint b.authorId := by
  simp [Book.getField]

theorem strLike_title : StrLikeField "title" := fun b => ⟨b.title, getField_title b⟩

theorem intLike_year : IntLikeField "year" := fun b => by
  rcases hy : b.year with _ | y
  · exact Or.inl (by rw [getField_year, hy])
  · exact Or.inr ⟨y, by rw [getField_year, hy]⟩

theorem intLike_id : IntLikeField "id" := fun b => Or.inr ⟨b.id, getField_id b⟩

theorem intLike_authorId : IntLikeField "authorId" :=
  fun b => Or.inr ⟨b.authorId, getField_authorId b⟩

theorem valid_field_shape (f : String) (hf : f ∈ VALID_SORT_FIELDS) :
    StrLikeField f ∨ IntLikeField f := by
  simp only [VALID_SORT_FIELDS, List.mem_cons, List.not_mem_nil, or_false] at hf
  rcases hf with rfl | rfl | rfl | rfl
  · exact Or.inl strLike_title
  · exact Or.inr intLike_year
  · exact Or.inr intLike_id
  · exact Or.inr intLike_authorId

theorem bookCompare_undef_right (f : String) (d : Bool) {a b : Book}
    (hB : b.getField f = .vundefined) : bookCompare f d a b ≤ 0 := by
  by_cases hA : a.getField f = .vundefined <;> simp [bookCompare, hA, hB]

theorem bookCompare_undef_left (f : String) (d : Bool) {a b : Book}
    (hA : a.getField f = .vundefined) (hB : b.getField f ≠ .vundefined) :
    ¬(bookCompare f d a b ≤ 0) := by
  simp [bookCompare, hA, hB]

theorem bookCompare_str_le (f : String) (d : Bool) {a b : Book} {s t : String}
    (hA : a.getField f = .vstr s) (hB : b.getField f = .vstr t) :
    (bookCompare f d a b ≤ 0) ↔ (if d then t ≤ s else s ≤ t) := by
  rcases lt_trichotomy s t with h | h | h
  · cases d <;>
      simp [bookCompare, hA, hB, fieldLt, h, lt_asymm h, le_of_lt h, not_le.mpr h]
  · subst h
    cases d <;> simp [bookCompare, hA, hB, fieldLt, lt_irrefl]
  · cases d <;>
      simp [bookCompare, hA, hB, fieldLt, h, lt_asymm h, le_of_lt h, not_le.mpr h]

theorem bookCompare_int_le (f : String) (d : Bool) {a b : Book} {m n : Int}
    (hA : a.getField f = .vint m) (hB : b.getField f = .vint n) :
    (bookCompare f d a b ≤ 0) ↔ (if d then n ≤ m else m ≤ n) := by
  rcases lt_trichotomy m n with h | h | h
  · cases d <;>
      simp [bookCompare, hA, hB, fieldLt, h, lt_asymm h, le_of_lt h, not_le.mpr h]
  · subst h
    cases d <;> simp [bookCompare, hA, hB, fieldLt, lt_irrefl]
  · cases d <;>
      simp [bookCompare, hA, hB, fieldLt, h, lt_asymm h, le_of_lt h, not_le.mpr h]

theorem bookCompare_le_total (f : String) (hf : StrLikeField f ∨ IntLikeField f)
    (d : Bool) (a b : Book) :
    bookCompare f d a b ≤ 0 ∨ bookCompare f d b a ≤ 0 := by
  rcases hf with hf | hf
  · obtain ⟨s, hA⟩ := hf a
    obtain ⟨t, hB⟩ := hf b
    rw [bookCompare_str_le f d hA hB, bookCompare_str_le f d hB hA]
    cases d <;> simp [le_total]
  · rcases hf b with hB | ⟨n, hB⟩
    · exact Or.inl (bookCompare_undef_right f d hB)
    rcases hf a with hA | ⟨m, hA⟩
    · exact Or.inr (bookCompare_undef_right f d hA)
    rw [bookCompare_int_le f d hA hB, bookCompare_int_le f d hB hA]
    cases d <;> simp [le_total]

theorem bookCompare_le_trans (f : String) (hf : StrLikeField f ∨ IntLikeField f)
    (d : Bool) (a b c : Book) (h₁ : bookCompare f d a b ≤ 0)
    (h₂ : bookCompare f d b c ≤ 0) : bookCompare f d a c ≤ 0 := by
  rcases hf with hf | hf
  · obtain ⟨s, hA⟩ := hf a
    obtain ⟨t, hB⟩ := hf b
    obtain ⟨u, hC⟩ := hf c
    rw [bookCompare_str_le f d hA hB] at h₁
    rw [bookCompare_str_le f d hB hC] at h₂
    rw [bookCompare_str_le f d hA hC]
    cases d
    · simp only [Bool.false_eq_true, if_false] at h₁ h₂ ⊢
      exact le_trans h₁ h₂
    · simp only [if_true] at h₁ h₂ ⊢
      exact le_trans h₂ h₁
  · rcases hf c with hC | ⟨k, hC⟩
    · exact bookCompare_undef_right f d hC
    rcases hf b with hB | ⟨n, hB⟩
    · exact absurd h₂ (bookCompare_undef_left f d hB (by rw [hC]; intro h; cases h))
    rcases hf a with hA | ⟨m, hA⟩
    · exact absurd h₁ (bookCompare_undef_left f d hA (by rw [hB]; intro h; cases h))
    rw [bookCompare_int_le f d hA hB] at h₁
    rw [bookCompare_int_le f d hB hC] at h₂
    rw [bookCompare_int_le f d hA hC]
    cases d
    · simp only [Bool.false_eq_true, if_false] at h₁ h₂ ⊢
      omega
    · simp only [if_true] at h₁ h₂ ⊢
      omega

theorem bookCompare_le_imp_spec (f : String) (d : Bool) (a b : Book)
    (h : bookCompare f d a b ≤ 0) : sortSpecLe f d a b := by
  unfold sortSpecLe
  rcases hA : a.getField f with s | m | _ <;> rcases hB : b.getField f with t | n | _ <;>
    simp only [hA, hB]
  · exact (bookCompare_str_le f d hA hB).mp h
  · exact (bookCompare_int_le f d hA hB).mp h
  · exact absurd h (bookCompare_undef_left f d hA (by rw [hB]; intro hc; cases hc))
  · exact absurd h (bookCompare_undef_left f d hA (by rw [hB]; intro hc; cases hc))

theorem sortParsed_of_valid (f : String) (hf : f ∈ VALID_SORT_FIELDS)
    (dir : Option String) (l : List Book) :
    sortParsed f dir l
      = List.insertionSort (fun a b => bookCompare f (dir == some "desc") a b ≤ 0) l := by
  rw [sortParsed, if_pos]
  simpa [List.contains] using hf

/-- C4: for every book list and every parsed sort parameter whose field is
in the allow-list, the pipeline stable-sorts by that field's natural
ordering (direction `desc` reverses comparisons, anything else means
ascending): the output is a permutation of the input, consecutive output
elements obey the claim-side per-field ordering — books missing the sort
field's value (only `year` can be absent) after all books that have one,
regardless of direction — and comparator ties keep their input order
(stability); an unrecognized field name leaves the list unsorted, without
error; and `year_asc` on the spec's three-book example yields the order
[3, 1, 2] (undefined last). -/
theorem sort_stage :
    (∀ (f : String) (dir : Option String) (l : List Book), f ∈ VALID_SORT_FIELDS →
        (sortParsed f dir l).Perm l
        ∧ (sortParsed f dir l).Pairwise (sortSpecLe f (dir == some "desc"))
        ∧ (∀ a b : Book, bookCompare f (dir == some "desc") a b = 0 →
            List.Sublist [a, b] l → List.Sublist [a, b] (sortParsed f dir l)))
    ∧ (∀ (s : String) (l : List Book),
        ((jsSplit '_' s).headD "") ∉ VALID_SORT_FIELDS → sortBooks s l = l)
    ∧ sortBooks "year_asc"
        [⟨1, "A", some 2000, 1⟩, ⟨2, "B", none, 1⟩, ⟨3, "C", some 1999, 1⟩]
      = [⟨3, "C", some 1999, 1⟩, ⟨1, "A", some 2000, 1⟩, ⟨2, "B", none, 1⟩] := by
  refine ⟨?_, ?_, by decide⟩
  · intro f dir l hf
    have shape := valid_field_shape f hf
    rw [sortParsed_of_valid f hf dir l]
    haveI htot : IsTotal Book
        (fun a b : Book => bookCompare f (dir == some "desc") a b ≤ 0) :=
      ⟨fun a b => bookCompare_le_total f shape (dir == some "desc") a b⟩
    haveI htrans : IsTrans Book
        (fun a b : Book => bookCompare f (dir == some "desc") a b ≤ 0) :=
      ⟨fun a b c => bookCompare_le_trans f shape (dir == some "desc") a b c⟩
    refine ⟨List.perm_insertionSort _ l, ?_, ?_⟩
    · have hsorted := List.sorted_insertionSort
        (fun a b : Book => bookCompare f (dir == some "desc") a b ≤ 0) l
      exact hsorted.imp
        (fun {x y} hxy => bookCompare_le_imp_spec f (dir == some "desc") x y hxy)
    · intro a b hab hsub
      exact List.pair_sublist_insertionSort (le_of_eq hab) hsub
  · intro s l hns
    simp only [sortBooks]
    rw [sortParsed, if_neg]
    intro hc
    exact hns (by simpa [List.contains] using hc)

/-- C4 witness: the general sort theorem applied at the spec's concrete
example list with field `year` ascending, plus a concrete unrecognized
field left unsorted. -/
theorem sort_stage_witness :
    (sortParsed "year" (some "asc") sortWitnessBooks).Perm sortWitnessBooks
    ∧ (sortParsed "year" (some "asc") sortWitnessBooks).Pairwise
        (sortSpecLe "year" ((some "asc" : Option String) == some "desc"))
    ∧ sortBooks "foo_asc" sortWitnessBooks = sortWitnessBooks :=
  ⟨(sort_stage.1 "year" (some "asc") sortWitnessBooks (by decide)).1,
   (sort_stage.1 "year" (some "asc") sortWitnessBooks (by decide)).2.1,
   sort_stage.2.1 "foo_asc" sortWitnessBooks (by decide)⟩

/-- C10 witness: a concrete author update with omitted `bio` clears the
stored bio, and a concrete book update with omitted `year` clears the
stored year while re-pointing `authorId`. -/
theorem update_overwrites_witness :
    (⟨2, "Ada", none⟩ : Author).bio = none
    ∧ (⟨2, "Ada", none⟩ : Author).id = 2
    ∧ (⟨2, "Ada", none⟩ : Author) ∈ (putAuthor c10AuthorState 2 ⟨.str "Ada", none⟩).2.authors
    ∧ (⟨3, "X", none, 2⟩ : Book).year = none
    ∧ (⟨3, "X", none, 2⟩ : Book) ∈ (putBook c10BookState 3 ⟨.str "X", .undefined, .num 2⟩).2.books := by
  have ha := update_overwrites.2.2.1 c10AuthorState 2 ⟨.str "Ada", none⟩
    ⟨2, "Ada", none⟩ (by decide)
  have hb := update_overwrites.2.2.2 c10BookState 3 ⟨.str "X", .undefined, .num 2⟩
    ⟨3, "X", none, 2⟩ (by decide)
  exact ⟨rfl, rfl, ha.2.2.2, rfl, hb.2.2.2.2⟩

end LibraryAPI
